import Mathlib

/-!
# Verification of the Akash n8n node core helpers

A shallow embedding of the numeric-conversion helpers, the SDL
parse/validate/convert pipeline and the deployment-create bid-polling loop
of the n8n Akash node, together with proofs about them.

Modelling conventions:
* JavaScript numbers are modelled as exact decimal rationals `man / 10 ^ exp`
  (structure `JsNum`).  IEEE-754 double rounding is not modelled; all numeric
  literals appearing in SDL manifests and node parameters are exact decimals.
* JavaScript objects are modelled as association lists in insertion order;
  `Record<string, T>` becomes `List (String × T)` and key access is `List.lookup`.
* `undefined` fields become `Option`; functions that can throw return
  `Except String`.  The exact text of JavaScript `TypeError`s is abbreviated.
* `parseFloat` / `parseInt` / `BigInt` are modelled on decimal inputs; the
  `Infinity` literal and non-decimal (hex/octal/binary) `BigInt` prefixes do
  not occur in this code base and are not modelled.
-/

deriving instance DecidableEq for Except

namespace Akash

/-- A JavaScript number as an exact decimal: the value is `man / 10 ^ exp`. -/
structure JsNum where
  man : ℤ
  exp : ℕ
deriving DecidableEq

/-- Rational value of a `JsNum`. -/
def JsNum.toRat (d : JsNum) : ℚ := (d.man : ℚ) / 10 ^ d.exp

/-- Embed an integer as a `JsNum`. -/
def JsNum.ofInt (z : ℤ) : JsNum := ⟨z, 0⟩

/-- Multiply a `JsNum` by an integer constant. -/
def JsNum.scaleMul (c : ℤ) (d : JsNum) : JsNum := ⟨c * d.man, d.exp⟩

/-- Divide a `JsNum` by `10 ^ k`. -/
def JsNum.shift10 (k : ℕ) (d : JsNum) : JsNum := ⟨d.man, d.exp + k⟩

/-- Multiply a `JsNum` by `10 ^ k`. -/
def JsNum.mul10pow (k : ℕ) (d : JsNum) : JsNum := ⟨d.man * 10 ^ k, d.exp⟩

/-- Boolean comparison `a ≤ b` on `JsNum` values. -/
def JsNum.leB (a b : JsNum) : Bool := a.man * 10 ^ b.exp ≤ b.man * 10 ^ a.exp

/-- Boolean comparison `a < b` on `JsNum` values. -/
def JsNum.ltB (a b : JsNum) : Bool := a.man * 10 ^ b.exp < b.man * 10 ^ a.exp

/-- `Math.round` on an exact decimal: `⌊x + 1/2⌋`, computed with integer
floor division (`Int./` is Euclidean division, which floors for a positive
divisor). -/
def JsNum.round (d : JsNum) : ℤ := (2 * d.man + 10 ^ d.exp) / (2 * 10 ^ d.exp)

/-- Whether a `JsNum` is an integer (needed by `BigInt(number)`). -/
def JsNum.isInt (d : JsNum) : Bool := d.man % ((10 : ℤ) ^ d.exp) = 0

/-- The integer value of a `JsNum` (floor; used only when `isInt` holds). -/
def JsNum.toInt (d : JsNum) : ℤ := d.man / (10 : ℤ) ^ d.exp

/-- Decimal digit value of a digit character. -/
def charDigit (c : Char) : ℕ := c.toNat - 48

/-- Character for a decimal digit. -/
def digitChar (d : ℕ) : Char := Char.ofNat (48 + d)

/-- Value of a list of decimal digits, most significant first. -/
def digitsVal (ds : List ℕ) : ℕ := ds.foldl (fun a d => 10 * a + d) 0

/-- Value of a list of digit characters. -/
def charsVal (cs : List Char) : ℕ := digitsVal (cs.map charDigit)

/-- Split a character list into its longest digit prefix and the rest
(the model of a regex `\d*` at the current position). -/
def takeDigits : List Char → List Char × List Char
  | [] => ([], [])
  | c :: cs =>
    if c.isDigit then
      let p := takeDigits cs
      (c :: p.1, p.2)
    else ([], c :: cs)

/-- Whitespace for the purposes of `trim` / leading-whitespace skipping. -/
def isWs (c : Char) : Bool := c.isWhitespace

/-- Trim whitespace from both ends of a character list (JS `String.trim`). -/
def trimChars (cs : List Char) : List Char :=
  ((cs.dropWhile isWs).reverse.dropWhile isWs).reverse

/-- Split an optional leading sign; returns (isNegative, rest). -/
def takeSign : List Char → Bool × List Char
  | c :: cs =>
    if c = '-' then (true, cs)
    else if c = '+' then (false, cs)
    else (false, c :: cs)
  | [] => (false, [])

/-- Decimal digits of a natural number, most significant first; `fuel`
bounds the recursion so that the definition reduces by `rfl`/`decide`. -/
def natDecDigitsAux : ℕ → ℕ → List ℕ
  | 0, _ => []
  | fuel + 1, n => if n < 10 then [n] else natDecDigitsAux fuel (n / 10) ++ [n % 10]

/-- Decimal digits of a natural number, most significant first. -/
def natDecDigits (n : ℕ) : List ℕ := natDecDigitsAux (n + 1) n

/-- Decimal string of a natural number. -/
def natDecString (n : ℕ) : String := String.mk ((natDecDigits n).map digitChar)

/-- Decimal string of an integer (the output format of JS `toString` on
integral numbers and on `BigInt`). -/
def intDecString (z : ℤ) : String :=
  if z < 0 then String.mk ('-' :: (natDecDigits z.natAbs).map digitChar)
  else natDecString z.toNat

/-- Read an ECMAScript exponent part (`e`/`E`, optional sign, digits) as a
prefix of the input; returns `none` when no well-formed exponent part starts
here (in which case `parseFloat` stops before the `e`). -/
def readExpPart (cs : List Char) : Option ℤ :=
  match cs with
  | c :: rest =>
    if c = 'e' ∨ c = 'E' then
      let s := takeSign rest
      let p := takeDigits s.2
      if p.1 = [] then none
      else some (if s.1 then -(charsVal p.1 : ℤ) else (charsVal p.1 : ℤ))
    else none
  | [] => none

/-- Build the `JsNum` value of a decimal literal from its sign, integer
digits, fraction digits and exponent. -/
def buildJsNum (sgn : Bool) (ip fp : List Char) (e : ℤ) : JsNum :=
  let m : ℤ := (charsVal ip * 10 ^ fp.length + charsVal fp : ℕ)
  let m := if sgn then -m else m
  if 0 ≤ e then ⟨m * 10 ^ e.toNat, fp.length⟩ else ⟨m, fp.length + (-e).toNat⟩

/-- ECMAScript `parseFloat` on a character list: skip leading whitespace,
then read the longest prefix that is a decimal literal; `none` models `NaN`.
The `Infinity` literal is not modelled (it never reaches these call sites). -/
def jsParseFloatChars (cs : List Char) : Option JsNum :=
  let cs1 := cs.dropWhile isWs
  let s := takeSign cs1
  let ipr := takeDigits s.2
  match ipr.2 with
  | c :: cs2 =>
    if c = '.' then
      let fpr := takeDigits cs2
      if ipr.1 = [] ∧ fpr.1 = [] then none
      else some (buildJsNum s.1 ipr.1 fpr.1 ((readExpPart fpr.2).getD 0))
    else if ipr.1 = [] then none
    else some (buildJsNum s.1 ipr.1 [] ((readExpPart ipr.2).getD 0))
  | [] =>
    if ipr.1 = [] then none
    else some (buildJsNum s.1 ipr.1 [] ((readExpPart []).getD 0))

/-- ECMAScript `parseFloat` on a string. -/
def jsParseFloat (s : String) : Option JsNum := jsParseFloatChars s.toList

/-- ECMAScript `parseInt(s, 10)`: skip leading whitespace, optional sign,
longest digit prefix; `none` models `NaN`. -/
def jsParseIntChars (cs : List Char) : Option ℤ :=
  let cs1 := cs.dropWhile isWs
  let s := takeSign cs1
  let p := takeDigits s.2
  if p.1 = [] then none
  else some (if s.1 then -(charsVal p.1 : ℤ) else (charsVal p.1 : ℤ))

/-- ECMAScript `parseInt(s, 10)` on a string. -/
def jsParseInt (s : String) : Option ℤ := jsParseIntChars s.toList

/-- `BigInt(string)`: after trimming, the whole string must be an optionally
signed decimal numeral; the empty string denotes `0`; `none` models the
`SyntaxError` thrown otherwise. -/
def jsBigIntChars (cs : List Char) : Option ℤ :=
  match trimChars cs with
  | [] => some 0
  | cs1 =>
    let s := takeSign cs1
    let p := takeDigits s.2
    if p.1 = [] ∨ p.2 ≠ [] then none
    else some (if s.1 then -(charsVal p.1 : ℤ) else (charsVal p.1 : ℤ))

/-- `BigInt(string)` on a string. -/
def jsBigIntOfString (s : String) : Option ℤ := jsBigIntChars s.toList

/-- Lowercase a character list (ASCII, as produced by `toLowerCase` on the
inputs occurring here). -/
def lowerChars (cs : List Char) : List Char := cs.map Char.toLower

/-! ## Constants (`constants/endpoints.ts`) -/

/-- `UAKT_PER_AKT = 1_000_000`. -/
def UAKT_PER_AKT : ℤ := 1000000

/-- `AKT_DECIMALS = 6`. -/
def AKT_DECIMALS : ℕ := 6

/-- `TOKEN_DENOMINATIONS.uakt`. -/
def denomUakt : String := "uakt"

/-- `TOKEN_DENOMINATIONS.usdc`. -/
def denomUsdc : String := "ibc/170C677610AC31DF0904FFE09CD3B5C657492170E7E52372E48756B71E56F2F1"

/-- `POLLING_INTERVALS.bidPolling = 3000` milliseconds. -/
def bidPollingInterval : ℕ := 3000

/-! ## Amount converters (`helpers/amountConverter.ts`) -/

/-- An `ICoin`: denomination plus amount string. -/
structure Coin where
  denom : String
  amount : String
deriving DecidableEq

/-- A JavaScript `number | string` argument. -/
inductive NumOrStr where
  | num (d : JsNum)
  | str (s : String)
deriving DecidableEq

/-- Strip trailing zero decimals so that e.g. `15/10^1` prints as `1.5` and
`10/10^1` prints as `1` (fuel is the exponent itself). -/
def stripZerosAux : ℕ → ℤ → ℕ → ℤ × ℕ
  | 0, m, e => (m, e)
  | fuel + 1, m, e =>
    if e = 0 then (m, e)
    else if m % 10 = 0 then stripZerosAux fuel (m / 10) (e - 1)
    else (m, e)

/-- Decimal rendering of a `JsNum`, as JS `String(number)` renders the decimal
values occurring here (exponent notation for extreme magnitudes is not
modelled; it never occurs in this code base). -/
def jsNumToString (d : JsNum) : String :=
  let p := stripZerosAux d.exp d.man d.exp
  if p.2 = 0 then intDecString p.1
  else
    let n := p.1.natAbs
    let ipart := natDecString (n / 10 ^ p.2)
    let fds := natDecDigits (n % 10 ^ p.2)
    let frac := List.replicate (p.2 - fds.length) 0 ++ fds
    (if p.1 < 0 then "-" else "") ++ ipart ++ "." ++ String.mk (frac.map digitChar)

/-- Text of a `number | string` inside a template literal. -/
def numOrStrText : NumOrStr → String
  | .num d => jsNumToString d
  | .str s => s

/-- `aktToUakt`: convert AKT to uAKT, returning the rounded amount as a
decimal string; throws on `NaN` and on negative amounts. -/
def aktToUakt (akt : NumOrStr) : Except String String :=
  let aktNum : Option JsNum :=
    match akt with
    | .str s => jsParseFloat s
    | .num d => some d
  match aktNum with
  | none => .error ("Invalid AKT amount: " ++ numOrStrText akt)
  | some d =>
    if d.ltB (JsNum.ofInt 0) then .error "Amount cannot be negative"
    else .ok (intDecString (d.scaleMul UAKT_PER_AKT).round)

/-- `(z / 1_000_000).toFixed(6)` computed exactly: the output of
`uaktToAkt` and of the USDC branch of `formatCoin`. -/
def fixed6OfMicro (z : ℤ) : String :=
  let n := z.natAbs
  let fds := natDecDigits (n % 1000000)
  let frac := List.replicate (6 - fds.length) 0 ++ fds
  (if z < 0 then "-" else "") ++ natDecString (n / 1000000) ++ "." ++
    String.mk (frac.map digitChar)

/-- `uaktToAkt`: convert uAKT to AKT with 6 decimal places. -/
def uaktToAkt (uakt : NumOrStr) : Except String String :=
  let uaktNum : Option ℤ :=
    match uakt with
    | .str s => jsParseInt s
    | .num d => some d.round
  match uaktNum with
  | none => .error ("Invalid uAKT amount: " ++ numOrStrText uakt)
  | some z => .ok (fixed6OfMicro z)

/-- `createAktCoin`: build a uakt `ICoin` from an AKT amount. -/
def createAktCoin (amount : NumOrStr) : Except String Coin := do
  pure { denom := denomUakt, amount := ← aktToUakt amount }

/-- `createCoin`. -/
def createCoin (amount : String) (denom : String) : Coin :=
  { denom := denom, amount := amount }

/-- `formatCoin`: human-readable format of an `ICoin`.  In the USDC branch a
non-numeric amount yields the string `NaN` (JS `toFixed` on `NaN`), not an
error. -/
def formatCoin (coin : Coin) : Except String String :=
  if coin.denom = denomUakt then do
    let akt ← uaktToAkt (.str coin.amount)
    pure (akt ++ " AKT")
  else if coin.denom = denomUsdc then
    match jsParseInt coin.amount with
    | none => pure ("NaN" ++ " USDC")
    | some z => pure (fixed6OfMicro z ++ " USDC")
  else pure (coin.amount ++ " " ++ coin.denom)

/-- Match `^(C+)\s*lit$` where `C` is a character class given by `cls`:
longest class prefix (nonempty), optional whitespace, then exactly the
literal `lit`. -/
def matchNumUnit (cls : Char → Bool) (cs : List Char) (lit : List Char) :
    Option (List Char) :=
  let numPart := cs.takeWhile cls
  let rest := cs.dropWhile cls
  if numPart = [] then none
  else if rest.dropWhile isWs = lit then some numPart
  else none

/-- Digit-or-dot class of the `[\d.]` regex character class. -/
def isDigitOrDot (c : Char) : Bool := c.isDigit || c = '.'

/-- `parseAmountString`: parse strings like `5 AKT`, `5000000 uakt`,
`3.5 USDC` or a bare number (assumed AKT). -/
def parseAmountString (amountStr : String) : Except String Coin :=
  let trimmed := lowerChars (trimChars amountStr.toList)
  match matchNumUnit isDigitOrDot trimmed ['a', 'k', 't'] with
  | some numChars => createAktCoin (.str (String.mk numChars))
  | none =>
  match matchNumUnit Char.isDigit trimmed ['u', 'a', 'k', 't'] with
  | some numChars => pure { denom := denomUakt, amount := String.mk numChars }
  | none =>
  match matchNumUnit isDigitOrDot trimmed ['u', 's', 'd', 'c'] with
  | some numChars =>
    let amount :=
      match jsParseFloatChars numChars with
      | none => "NaN"
      | some d => intDecString (d.scaleMul 1000000).round
    pure { denom := denomUsdc, amount := amount }
  | none =>
    if trimmed ≠ [] ∧ trimmed.all isDigitOrDot then
      createAktCoin (.str (String.mk trimmed))
    else .error ("Unable to parse amount string: " ++ amountStr)

/-- Byte multiplier of a (lowercased) memory unit suffix, exactly the cases
of the `[KMGTP]i?` regex group plus the empty unit. -/
def memUnitMult : List Char → Option ℤ
  | [] => some 1
  | ['k'] => some 1000
  | ['k', 'i'] => some 1024
  | ['m'] => some 1000000
  | ['m', 'i'] => some (1024 * 1024)
  | ['g'] => some 1000000000
  | ['g', 'i'] => some (1024 * 1024 * 1024)
  | ['t'] => some 1000000000000
  | ['t', 'i'] => some (1024 * 1024 * 1024 * 1024)
  | ['p'] => some 1000000000000000
  | ['p', 'i'] => some (1024 * 1024 * 1024 * 1024 * 1024)
  | _ => none

/-- The trailing `\s*([KMGTP]i?)?$` part of the memory size regex: skip
whitespace, then the rest must be a unit from the multiplier table. -/
def memUnitPart (ip fp rest2 : List Char) : Option (JsNum × ℤ) :=
  match memUnitMult (lowerChars (rest2.dropWhile isWs)) with
  | none => none
  | some mult => some (buildJsNum false ip fp 0, mult)

/-- Match the anchored regex `^(\d+(?:\.\d+)?)\s*([KMGTP]i?)?$` (with the
`i` flag): returns the literal value and the unit multiplier. -/
def memSizeMatch (cs : List Char) : Option (JsNum × ℤ) :=
  let ip := cs.takeWhile Char.isDigit
  let rest := cs.dropWhile Char.isDigit
  if ip = [] then none
  else
    match rest with
    | c :: cs2 =>
      if c = '.' then
        let fp := cs2.takeWhile Char.isDigit
        let rest2 := cs2.dropWhile Char.isDigit
        if fp = [] then none
        else memUnitPart ip fp rest2
      else memUnitPart ip [] rest
    | [] => memUnitPart ip [] rest

/-- `parseMemorySize`: parse a memory size string to bytes.  The second
`Unknown memory unit` throw of the source is unreachable because the regex
already restricts the unit group to the table keys. -/
def parseMemorySize (sizeStr : String) : Except String ℤ :=
  match memSizeMatch sizeStr.toList with
  | none => .error ("Invalid memory size format: " ++ sizeStr)
  | some p => .ok (p.1.scaleMul p.2).round

/-- Match the anchored regex `^(\d+)m$`. -/
def milliMatch (cs : List Char) : Option (List Char) :=
  let ds := cs.takeWhile Char.isDigit
  if ds = [] then none
  else if cs.dropWhile Char.isDigit = ['m'] then some ds
  else none

/-- `parseCpuUnits`: `Nm` means `N / 1000`; otherwise `parseFloat` of the
trimmed lowercased input (which accepts any numeric prefix). -/
def parseCpuUnits (cpuStr : String) : Except String JsNum :=
  let trimmed := lowerChars (trimChars cpuStr.toList)
  match milliMatch trimmed with
  | some ds => .ok ⟨(charsVal ds : ℤ), 3⟩
  | none =>
    match jsParseFloatChars trimmed with
    | some d => .ok d
    | none => .error ("Invalid CPU units format: " ++ cpuStr)

/-- `compareAmounts`: `BigInt` comparison of two amount strings; a malformed
string throws (JS `SyntaxError`). -/
def compareAmounts (a b : String) : Except String ℤ :=
  match jsBigIntOfString a, jsBigIntOfString b with
  | some x, some y => .ok (if x < y then -1 else if y < x then 1 else 0)
  | _, _ => .error "SyntaxError: cannot convert string to a BigInt"

/-- `addAmounts`: `BigInt` addition of two amount strings. -/
def addAmounts (a b : String) : Except String String :=
  match jsBigIntOfString a, jsBigIntOfString b with
  | some x, some y => .ok (intDecString (x + y))
  | _, _ => .error "SyntaxError: cannot convert string to a BigInt"

/-- `subtractAmounts`: `BigInt` subtraction, throwing when the result would
be negative. -/
def subtractAmounts (a b : String) : Except String String :=
  match jsBigIntOfString a, jsBigIntOfString b with
  | some x, some y =>
    if x - y < 0 then .error "Subtraction would result in negative amount"
    else .ok (intDecString (x - y))
  | _, _ => .error "SyntaxError: cannot convert string to a BigInt"

/-! ## Effectful view of the converters

The JavaScript runtime threads an ambient mutable world through every call.
To state that the converters are pure we re-express each one as a
state-passing function over an arbitrary world type `W`; the translation of
each converter body never reads or writes `w`, which is exactly what the
source code shows: the functions only use their arguments and module-level
constants. -/

/-- Effectful translation of `aktToUakt`. -/
def aktToUaktEff (W : Type) (w : W) (akt : NumOrStr) : Except String String × W :=
  (aktToUakt akt, w)

/-- Effectful translation of `uaktToAkt`. -/
def uaktToAktEff (W : Type) (w : W) (uakt : NumOrStr) : Except String String × W :=
  (uaktToAkt uakt, w)

/-- Effectful translation of `parseAmountString`. -/
def parseAmountStringEff (W : Type) (w : W) (s : String) : Except String Coin × W :=
  (parseAmountString s, w)

/-- Effectful translation of `parseMemorySize`. -/
def parseMemorySizeEff (W : Type) (w : W) (s : String) : Except String ℤ × W :=
  (parseMemorySize s, w)

/-- Effectful translation of `parseCpuUnits`. -/
def parseCpuUnitsEff (W : Type) (w : W) (s : String) : Except String JsNum × W :=
  (parseCpuUnits s, w)

/-- Effectful translation of `formatCoin`. -/
def formatCoinEff (W : Type) (w : W) (c : Coin) : Except String String × W :=
  (formatCoin c, w)

/-- Effectful translation of `compareAmounts`. -/
def compareAmountsEff (W : Type) (w : W) (a b : String) : Except String ℤ × W :=
  (compareAmounts a b, w)

/-- Effectful translation of `addAmounts`. -/
def addAmountsEff (W : Type) (w : W) (a b : String) : Except String String × W :=
  (addAmounts a b, w)

/-- Effectful translation of `subtractAmounts`. -/
def subtractAmountsEff (W : Type) (w : W) (a b : String) : Except String String × W :=
  (subtractAmounts a b, w)

/-! ## SDL data model (`types.ts`)

`Record<string, T>` fields become association lists in insertion order;
fields that may be absent from the parsed YAML become `Option`.  Fields that
are read by none of the modelled functions (`command`, `args`, `env`,
`params`, `as`, `accept` handling in `sdlToManifest`, gpu `interface`) are
omitted. -/

/-- An `ISDLExposeTo` entry. -/
structure SDLExposeTo where
  global : Option Bool
  service : Option String
deriving DecidableEq

/-- An `ISDLExpose` entry; `toPart` models the `to` field (a reserved word
in Lean), and the `as` field is unused by the modelled code. -/
structure SDLExpose where
  port : Option JsNum
  proto : Option String
  toPart : Option (List SDLExposeTo)
deriving DecidableEq

/-- An `ISDLService` (only the fields the modelled functions read). -/
structure SDLService where
  image : String
  expose : Option (List SDLExpose)
deriving DecidableEq

/-- `cpu.units` is `number | string` in the SDL schema. -/
inductive CpuUnitsVal where
  | num (d : JsNum)
  | str (s : String)
deriving DecidableEq

/-- The `cpu` resource block. -/
structure SDLCpu where
  units : Option CpuUnitsVal
deriving DecidableEq

/-- The `memory` resource block; an absent `size` is modelled as `""`
(both are falsy and produce the same validation error). -/
structure SDLMemory where
  size : String
deriving DecidableEq

/-- An `ISDLStorage` entry; `sclass` models the `class` field. -/
structure SDLStorage where
  size : String
  name : Option String
  sclass : Option String
deriving DecidableEq

/-- `storage` may be a single object or an array. -/
inductive SDLStorageField where
  | one (s : SDLStorage)
  | many (l : List SDLStorage)
deriving DecidableEq

/-- An `ISDLGpuModel`. -/
structure SDLGpuModel where
  model : String
  ram : Option String
deriving DecidableEq

/-- The `vendor` block of gpu attributes. -/
structure SDLGpuVendor where
  nvidia : Option (List SDLGpuModel)
deriving DecidableEq

/-- The `attributes` block of a gpu resource. -/
structure SDLGpuAttrs where
  vendor : Option SDLGpuVendor
deriving DecidableEq

/-- An `ISDLGpu`; `units : Option JsNum` models both an absent and a
non-number `units` (the validator treats them alike). -/
structure SDLGpu where
  units : Option JsNum
  attributes : Option SDLGpuAttrs
deriving DecidableEq

/-- An `ISDLResources`. -/
structure SDLResources where
  cpu : Option SDLCpu
  memory : Option SDLMemory
  storage : Option SDLStorageField
  gpu : Option SDLGpu
deriving DecidableEq

/-- An `ISDLComputeProfile`. -/
structure SDLComputeProfile where
  resources : Option SDLResources
deriving DecidableEq

/-- An `ISDLPricing`; `amount : Option JsNum` models both an absent and a
non-number amount. -/
structure SDLPricing where
  denom : String
  amount : Option JsNum
deriving DecidableEq

/-- An `ISignedBy`. -/
structure SignedBy where
  anyOf : Option (List String)
  allOf : Option (List String)
deriving DecidableEq

/-- An `ISDLPlacementProfile`. -/
structure SDLPlacementProfile where
  attributes : Option (List (String × String))
  signedBy : Option SignedBy
  pricing : Option (List (String × SDLPricing))
deriving DecidableEq

/-- The `profiles` block. -/
structure SDLProfiles where
  compute : Option (List (String × SDLComputeProfile))
  placement : Option (List (String × SDLPlacementProfile))
deriving DecidableEq

/-- One service entry of a deployment placement. -/
structure SDLDeployConfig where
  profile : String
  count : Option JsNum
deriving DecidableEq

/-- An `ISDLManifest` as produced by `yaml.load`. -/
structure SDLManifest where
  version : Option String
  services : Option (List (String × SDLService))
  profiles : Option SDLProfiles
  deployment : Option (List (String × List (String × SDLDeployConfig)))
deriving DecidableEq

/-! ## Blockchain group shapes (`IGroupSpec` etc.) -/

/-- An `IAttribute`. -/
structure Attribute where
  key : String
  value : String
deriving DecidableEq

/-- A `{ val : string }` wrapper. -/
structure ResVal where
  val : String
deriving DecidableEq

/-- An `IStorageResource`. -/
structure StorageResource where
  name : String
  quantity : ResVal
  attributes : Option (List Attribute)
deriving DecidableEq

/-- An `IEndpoint`. -/
structure Endpoint where
  kind : ℕ
  sequenceNumber : ℕ
deriving DecidableEq

/-- The cpu part of `IResourceUnits`. -/
structure CpuRes where
  units : ResVal
deriving DecidableEq

/-- The memory part of `IResourceUnits`. -/
structure MemRes where
  quantity : ResVal
deriving DecidableEq

/-- The gpu part of `IResourceUnits`. -/
structure GpuRes where
  units : ResVal
  attributes : Option (List Attribute)
deriving DecidableEq

/-- An `IResourceUnits`. -/
structure ResourceUnits where
  cpu : CpuRes
  memory : MemRes
  storage : List StorageResource
  gpu : Option GpuRes
  endpoints : Option (List Endpoint)
deriving DecidableEq

/-- An `IResourceGroup`; `count` is the raw (possibly absent) JS number. -/
structure ResourceGroup where
  resources : ResourceUnits
  count : Option JsNum
  price : Coin
deriving DecidableEq

/-- An `IPlacementRequirements`. -/
structure PlacementRequirements where
  attributes : Option (List Attribute)
  signedBy : Option SignedBy
deriving DecidableEq

/-- An `IGroupSpec`. -/
structure GroupSpec where
  name : String
  requirements : PlacementRequirements
  resources : List ResourceGroup
deriving DecidableEq

/-! ## SDL validation (`helpers/sdlParser.ts`) -/

/-- Property access on a possibly-`undefined` value: accessing a property of
`undefined` throws a `TypeError` (message abbreviated). -/
def jsGet {α : Type} : Option α → Except String α
  | some a => .ok a
  | none => .error "TypeError: undefined"

/-- JS truthiness of a number: everything but `0` (and `NaN`). -/
def numTruthy (d : JsNum) : Bool := d.man ≠ 0

/-- JS truthiness of `cpu.units : number | string`. -/
def cpuUnitsTruthy : CpuUnitsVal → Bool
  | .num d => numTruthy d
  | .str s => s ≠ ""

/-- `parseCpuUnits(String(units))`.  For a number `x`, `parseFloat` of
`String(x)` round-trips to `x` (the rendering never ends in `m` and is a
valid decimal literal), so the number case returns the value directly. -/
def cpuUnitsParse : CpuUnitsVal → Except String JsNum
  | .num d => .ok d
  | .str s => parseCpuUnits s

/-- `validateService` (lines 136-157). -/
def validateService (name : String) (service : SDLService) : List String :=
  (if service.image = "" then ["Service " ++ name ++ ": missing required field image"]
   else []) ++
  (match service.expose with
   | none => []
   | some exps =>
     exps.enum.flatMap (fun p =>
       (match p.2.port with
        | some d =>
          if numTruthy d then []
          else ["Service " ++ name ++ ": expose[" ++ natDecString p.1 ++
                "] missing or invalid port"]
        | none =>
          ["Service " ++ name ++ ": expose[" ++ natDecString p.1 ++
           "] missing or invalid port"]) ++
       (match p.2.proto with
        | none => []
        | some pr =>
          if pr ≠ "" ∧ pr ≠ "tcp" ∧ pr ≠ "udp" then
            ["Service " ++ name ++ ": expose[" ++ natDecString p.1 ++
             "] invalid proto " ++ pr ++ " (must be tcp or udp)"]
          else [])))

/-- `validateComputeProfile` (lines 162-214). -/
def validateComputeProfile (name : String) (profile : SDLComputeProfile) :
    List String :=
  match profile.resources with
  | none => ["Compute profile " ++ name ++ ": missing required field resources"]
  | some r =>
    (match r.cpu with
     | none => ["Compute profile " ++ name ++ ": missing required field resources.cpu.units"]
     | some c =>
       match c.units with
       | none => ["Compute profile " ++ name ++ ": missing required field resources.cpu.units"]
       | some u =>
         if cpuUnitsTruthy u then
           match cpuUnitsParse u with
           | .error _ => ["Compute profile " ++ name ++ ": invalid cpu.units format"]
           | .ok v =>
             if v.leB (JsNum.ofInt 0) then
               ["Compute profile " ++ name ++ ": cpu.units must be positive"]
             else []
         else ["Compute profile " ++ name ++ ": missing required field resources.cpu.units"]) ++
    (match r.memory with
     | none => ["Compute profile " ++ name ++ ": missing required field resources.memory.size"]
     | some m =>
       if m.size = "" then
         ["Compute profile " ++ name ++ ": missing required field resources.memory.size"]
       else
         match parseMemorySize m.size with
         | .error _ => ["Compute profile " ++ name ++ ": invalid memory.size format"]
         | .ok v =>
           if v ≤ 0 then ["Compute profile " ++ name ++ ": memory.size must be positive"]
           else []) ++
    (match r.storage with
     | none => ["Compute profile " ++ name ++ ": missing required field resources.storage"]
     | some _ => []) ++
    (match r.gpu with
     | none => []
     | some g =>
       match g.units with
       | none => ["Compute profile " ++ name ++ ": gpu.units must be a non-negative number"]
       | some u =>
         if u.ltB (JsNum.ofInt 0) then
           ["Compute profile " ++ name ++ ": gpu.units must be a non-negative number"]
         else [])

/-- `validatePlacementProfile` (lines 219-237). -/
def validatePlacementProfile (name : String) (profile : SDLPlacementProfile) :
    List String :=
  match profile.pricing with
  | none => ["Placement profile " ++ name ++ ": missing required field pricing"]
  | some [] => ["Placement profile " ++ name ++ ": missing required field pricing"]
  | some l =>
    l.flatMap (fun p =>
      (if p.2.denom = "" then
         ["Placement profile " ++ name ++ ": pricing for " ++ p.1 ++ " missing denom"]
       else []) ++
      (match p.2.amount with
       | some a =>
         if a.leB (JsNum.ofInt 0) then
           ["Placement profile " ++ name ++ ": pricing for " ++ p.1 ++
            " must have positive amount"]
         else []
       | none =>
         ["Placement profile " ++ name ++ ": pricing for " ++ p.1 ++
          " must have positive amount"]))

/-- `sdl.profiles?.placement?.[name]`. -/
def placementLookup (sdl : SDLManifest) (name : String) : Option SDLPlacementProfile :=
  (sdl.profiles.bind (fun p => p.placement)).bind (fun l => l.lookup name)

/-- `sdl.profiles?.compute?.[name]`. -/
def computeLookup (sdl : SDLManifest) (name : String) : Option SDLComputeProfile :=
  (sdl.profiles.bind (fun p => p.compute)).bind (fun l => l.lookup name)

/-- `sdl.services?.[name]`. -/
def serviceLookup (sdl : SDLManifest) (name : String) : Option SDLService :=
  sdl.services.bind (fun l => l.lookup name)

/-- The version section errors of `validateSDL`. -/
def versionErrors (sdl : SDLManifest) : List String :=
  match sdl.version with
  | none => ["Missing required field: version"]
  | some v =>
    if v = "" then ["Missing required field: version"]
    else if v ≠ "2.0" ∧ v ≠ "2.1" then
      ["Unsupported SDL version: " ++ v ++ ". Supported versions: 2.0, 2.1"]
    else []

/-- The services section errors of `validateSDL`. -/
def servicesErrors (sdl : SDLManifest) : List String :=
  match sdl.services with
  | none => ["Missing required field: services (at least one service required)"]
  | some [] => ["Missing required field: services (at least one service required)"]
  | some l => l.flatMap (fun p => validateService p.1 p.2)

/-- The profiles section errors of `validateSDL`. -/
def profilesErrors (sdl : SDLManifest) : List String :=
  match sdl.profiles with
  | none => ["Missing required field: profiles"]
  | some pr =>
    (match pr.compute with
     | none => ["Missing required field: profiles.compute"]
     | some [] => ["Missing required field: profiles.compute"]
     | some l => l.flatMap (fun p => validateComputeProfile p.1 p.2)) ++
    (match pr.placement with
     | none => ["Missing required field: profiles.placement"]
     | some [] => ["Missing required field: profiles.placement"]
     | some l => l.flatMap (fun p => validatePlacementProfile p.1 p.2))

/-- The per-service deployment reference errors of `validateSDL`. -/
def deployServiceErrors (sdl : SDLManifest) (sc : String × SDLDeployConfig) :
    List String :=
  (if (serviceLookup sdl sc.1).isNone then
     ["Deployment references undefined service: " ++ sc.1]
   else []) ++
  (if (computeLookup sdl sc.2.profile).isNone then
     ["Deployment references undefined compute profile: " ++ sc.2.profile]
   else []) ++
  (match sc.2.count with
   | some c =>
     if c.ltB (JsNum.ofInt 1) then
       ["Invalid count for service " ++ sc.1 ++ ": must be a positive integer"]
     else []
   | none =>
     ["Invalid count for service " ++ sc.1 ++ ": must be a positive integer"])

/-- The deployment section errors of `validateSDL`. -/
def deploymentErrors (sdl : SDLManifest) : List String :=
  match sdl.deployment with
  | none => ["Missing required field: deployment"]
  | some [] => ["Missing required field: deployment"]
  | some l =>
    l.flatMap (fun pl =>
      (if (placementLookup sdl pl.1).isNone then
         ["Deployment references undefined placement profile: " ++ pl.1]
       else []) ++
      pl.2.flatMap (fun sc => deployServiceErrors sdl sc))

/-- `validateSDL` (lines 59-131): structural validation of a parsed SDL
manifest.  Returns `(valid, errors)` with `valid = (errors.length == 0)`. -/
def validateSDL (sdl : SDLManifest) : Bool × List String :=
  let errors :=
    versionErrors sdl ++ servicesErrors sdl ++ profilesErrors sdl ++
      deploymentErrors sdl
  (errors.isEmpty, errors)

/-! ## SDL to deployment groups (`sdlToGroups`, `convertResources`) -/

/-- `aktToUakt(pricing.amount)` where the amount may be `undefined`
(`isNaN(undefined)` is true, so the source throws `Invalid AKT amount`). -/
def aktToUaktOptNum (a : Option JsNum) : Except String String :=
  match a with
  | none => .error ("Invalid AKT amount: " ++ "undefined")
  | some d => aktToUakt (.num d)

/-- Default storage entry name: `s.name || (index === 0 ? ... )`. -/
def storageEntryName (s : SDLStorage) (idx : ℕ) : String :=
  let dflt := if idx = 0 then "default" else "storage-" ++ natDecString idx
  match s.name with
  | some n => if n ≠ "" then n else dflt
  | none => dflt

/-- One converted storage entry of `convertResources`. -/
def convertStorageEntry (idx : ℕ) (s : SDLStorage) : Except String StorageResource := do
  let bytes ← parseMemorySize s.size
  pure
    { name := storageEntryName s idx
    , quantity := ⟨intDecString bytes⟩
    , attributes :=
        match s.sclass with
        | some c => if c ≠ "" then some [⟨"class", c⟩] else none
        | none => none }

/-- `Array.isArray(resources.storage) ? resources.storage : [resources.storage]`. -/
def storageListOf : SDLStorageField → List SDLStorage
  | .one s => [s]
  | .many l => l

/-- Gpu attribute list of `convertResources`. -/
def gpuAttrList (g : SDLGpu) : List Attribute :=
  match (g.attributes.bind fun a => a.vendor).bind (fun v => v.nvidia) with
  | some models =>
    if models.length > 0 then
      (⟨"vendor", "nvidia"⟩ :: []) ++
      (match models.head? with
       | some m0 =>
         (if m0.model ≠ "" then [⟨"model", m0.model⟩] else []) ++
         (match m0.ram with
          | some r => if r ≠ "" then [⟨"ram", r⟩] else []
          | none => [])
       | none => [])
    else []
  | none => []

/-- `expose.to?.some(t => t.global)`. -/
def exposeGlobal (e : SDLExpose) : Bool :=
  match e.toPart with
  | some l => l.any (fun t => t.global = some true)
  | none => false

/-- `convertResources` (lines 307-365): convert SDL resources plus the
service (for endpoints) into blockchain `IResourceUnits`. -/
def convertResources (resources : Option SDLResources) (service : Option SDLService) :
    Except String ResourceUnits := do
  let r ← jsGet resources
  let cpu ← jsGet r.cpu
  let cpuValue ←
    match cpu.units with
    | none => parseCpuUnits "undefined"
    | some u => cpuUnitsParse u
  let cpuMillis := (cpuValue.scaleMul 1000).round
  let mem ← jsGet r.memory
  let memoryBytes ← parseMemorySize mem.size
  let storageField ← jsGet r.storage
  let storageResources ← (storageListOf storageField).enum.mapM
    (fun p => convertStorageEntry p.1 p.2)
  let gpuPart : Option GpuRes :=
    match r.gpu with
    | some g =>
      match g.units with
      | some u =>
        if (JsNum.ofInt 0).ltB u then
          let attrs := gpuAttrList g
          some { units := ⟨jsNumToString u⟩
               , attributes := if attrs.length > 0 then some attrs else none }
        else none
      | none => none
    | none => none
  let svc ← jsGet service
  let endpoints : Option (List Endpoint) :=
    match svc.expose with
    | some exps =>
      if exps.length > 0 then
        some (exps.enum.map (fun p =>
          { kind := if exposeGlobal p.2 then 1 else 0, sequenceNumber := p.1 }))
      else none
    | none => none
  pure
    { cpu := ⟨⟨intDecString cpuMillis⟩⟩
    , memory := ⟨⟨intDecString memoryBytes⟩⟩
    , storage := storageResources
    , gpu := gpuPart
    , endpoints := endpoints }

/-- The body of the inner service loop of `sdlToGroups`: build one
`IResourceGroup` for one deployment service entry. -/
def resourceOfService (sdl : SDLManifest) (profiles : SDLProfiles)
    (placementProfile : Option SDLPlacementProfile) (sc : String × SDLDeployConfig) :
    Except String ResourceGroup := do
  let config := sc.2
  let computes ← jsGet profiles.compute
  let computeProfile := computes.lookup config.profile
  let pp ← jsGet placementProfile
  let pricingMap ← jsGet pp.pricing
  let pricing := pricingMap.lookup config.profile
  let cp ← jsGet computeProfile
  let svcs ← jsGet sdl.services
  let resourceUnits ← convertResources cp.resources (svcs.lookup sc.1)
  let p ← jsGet pricing
  let amt ← aktToUaktOptNum p.amount
  pure ({ resources := resourceUnits
        , count := config.count
        , price := { denom := p.denom, amount := amt } } : ResourceGroup)

/-- The body of the outer placement loop of `sdlToGroups`: build one
`IGroupSpec` for one deployment placement. -/
def groupOfPlacement (sdl : SDLManifest)
    (pl : String × List (String × SDLDeployConfig)) : Except String GroupSpec := do
  let profiles ← jsGet sdl.profiles
  let placements ← jsGet profiles.placement
  let placementProfile := placements.lookup pl.1
  let resources ← pl.2.mapM (fun sc => resourceOfService sdl profiles placementProfile sc)
  let pp2 ← jsGet placementProfile
  let requirements : PlacementRequirements :=
    { attributes := pp2.attributes.map (fun l => l.map (fun kv => ⟨kv.1, kv.2⟩))
    , signedBy := pp2.signedBy }
  pure ({ name := pl.1, requirements := requirements, resources := resources } : GroupSpec)

/-- `sdlToGroups` (lines 256-302): convert a manifest into the deployment
group specs sent on-chain.  Property accesses on possibly-missing objects
throw exactly where the source would. -/
def sdlToGroups (sdl : SDLManifest) : Except String (List GroupSpec) := do
  let deployment ← jsGet sdl.deployment
  deployment.mapM (fun pl => groupOfPlacement sdl pl)

/-- `BigInt(string)` as an exception-throwing operation. -/
def bigIntE (s : String) : Except String ℤ :=
  match jsBigIntOfString s with
  | some z => .ok z
  | none => .error "SyntaxError: cannot convert string to a BigInt"

/-- `BigInt(count)` for a possibly-missing JS number: throws on `undefined`
and on non-integral numbers. -/
def bigIntOfCount (c : Option JsNum) : Except String ℤ :=
  match c with
  | none => .error "TypeError: cannot convert undefined to a BigInt"
  | some d => if d.isInt then .ok d.toInt else .error "RangeError: not an integer"

/-- The per-service summand of `calculateSDLPrice`:
`BigInt(aktToUakt(pricing.amount)) * BigInt(config.count)`. -/
def priceOfService (placementProfile : Option SDLPlacementProfile)
    (sc : String × SDLDeployConfig) : Except String ℤ := do
  let pp ← jsGet placementProfile
  let pricingMap ← jsGet pp.pricing
  let pricing ← jsGet (pricingMap.lookup sc.2.profile)
  let priceUakt ← aktToUaktOptNum pricing.amount
  let a ← bigIntE priceUakt
  let c ← bigIntOfCount sc.2.count
  pure (a * c)

/-- The per-placement step of the `calculateSDLPrice` fold. -/
def placementPriceFold (sdl : SDLManifest) (acc : ℤ)
    (pl : String × List (String × SDLDeployConfig)) : Except String ℤ := do
  let profiles ← jsGet sdl.profiles
  let placements ← jsGet profiles.placement
  let placementProfile := placements.lookup pl.1
  pl.2.foldlM (fun (acc2 : ℤ) sc => do
    let v ← priceOfService placementProfile sc
    pure (acc2 + v)) acc

/-- `calculateSDLPrice` (lines 570-587): total uakt price per block. -/
def calculateSDLPrice (sdl : SDLManifest) : Except String Coin := do
  let deployment ← jsGet sdl.deployment
  let total ← deployment.foldlM (placementPriceFold sdl) (0 : ℤ)
  pure { denom := denomUakt, amount := intDecString total }

/-- Options record of `createSimpleSDL`.  The `env` entries only add an
`env` list to the service, which no modelled function reads; they are kept
for interface fidelity. -/
structure SimpleSDLOpts where
  serviceName : String
  image : String
  cpu : JsNum
  memory : String
  storage : String
  port : Option JsNum
  env : Option (List (String × String))
  replicas : Option JsNum
  maxPrice : Option JsNum

/-- `createSimpleSDL` (lines 491-563) composed with the YAML round-trip:
the source builds a plain-data object, dumps it with `yaml.dump` and the
caller re-parses it with `yaml.load`, which is the identity on plain data;
the model returns the built manifest directly. -/
def createSimpleSDL (o : SimpleSDLOpts) : SDLManifest :=
  let replicas := o.replicas.getD (JsNum.ofInt 1)
  let maxPrice := o.maxPrice.getD (JsNum.ofInt 100)
  { version := some "2.0"
  , services := some [(o.serviceName,
      { image := o.image
      , expose :=
          match o.port with
          | some p =>
            if numTruthy p then
              some [{ port := some p, proto := none
                    , toPart := some [{ global := some true, service := none }] }]
            else none
          | none => none })]
  , profiles := some
      { compute := some [(o.serviceName,
          { resources := some
              { cpu := some { units := some (.num o.cpu) }
              , memory := some { size := o.memory }
              , storage := some (.many [{ size := o.storage, name := none, sclass := none }])
              , gpu := none } })]
      , placement := some [("dcloud",
          { attributes := none
          , signedBy := none
          , pricing := some [(o.serviceName, { denom := "uakt", amount := some maxPrice })] })] }
  , deployment := some [("dcloud",
      [(o.serviceName, { profile := o.serviceName, count := some replicas })])] }

/-! ## Deployment create: bid polling and auto-accept
(`actions/deployment/create.ts`, `execute`, lines 507-666)

The polling loop is driven by the environment: one `PollRound` records what
one iteration of the `while` loop observes — the result of the `getBids`
call (`none` when it threw; the `catch` block continues polling) and the
elapsed time `Date.now() - startTime` at the 30-second check.  Which rounds
execute at all is governed by the wall clock; the timing bound is modelled
separately by the `pollStep` relation below. -/

/-- An `IBidId`. -/
structure BidID where
  owner : String
  dseq : String
  gseq : ℕ
  oseq : ℕ
  provider : String
deriving DecidableEq

/-- An `IBid` (the fields the loop reads). -/
structure Bid where
  bidId : BidID
  price : Coin
deriving DecidableEq

/-- `parseInt(b.price.amount, 10) <= maxPrice`; a `NaN` comparison is false. -/
def priceLeMax (b : Bid) (mp : JsNum) : Bool :=
  match jsParseInt b.price.amount with
  | some n => (JsNum.ofInt n).leB mp
  | none => false

/-- `options.maxPrice && options.maxPrice > 0 ? bids.filter(...) : bids`. -/
def eligibleBids (maxPrice : Option JsNum) (bids : List Bid) : List Bid :=
  match maxPrice with
  | some mp =>
    if numTruthy mp && (JsNum.ofInt 0).ltB mp then bids.filter (fun b => priceLeMax b mp)
    else bids
  | none => bids

/-- `parseInt(curr.price.amount) < parseInt(prev.price.amount)`; false when
either side is `NaN`. -/
def lowerPrice (curr prev : Bid) : Bool :=
  match jsParseInt curr.price.amount, jsParseInt prev.price.amount with
  | some c, some p => c < p
  | _, _ => false

/-- `eligibleBids.reduce((prev, curr) => ...)`: the JS `reduce` with no seed
starts from the first element; returns `none` on an empty list (the source
guards with `eligibleBids.length > 0`). -/
def selectLowest : List Bid → Option Bid
  | [] => none
  | b :: bs => some (bs.foldl (fun prev curr => if lowerPrice curr prev then curr else prev) b)

/-- `eligibleBids.find(b => b.bidId.provider === options.preferredProvider)`. -/
def findPreferred (preferred : String) (l : List Bid) : Option Bid :=
  l.find? (fun b => b.bidId.provider = preferred)

/-- One observed iteration of the polling loop. -/
structure PollRound where
  bids : Option (List Bid)
  elapsedAfter : ℕ
deriving DecidableEq

/-- One loop body: from the current `bestBid` and `bids` variables and the
round observation, compute the updated variables and whether the loop
`break`s. -/
def stepRound (maxPrice : Option JsNum) (preferred : String) (best : Option Bid)
    (lastBids : List Bid) (r : PollRound) : Option Bid × List Bid × Bool :=
  match r.bids with
  | none => (best, lastBids, false)
  | some bids =>
    if bids.length > 0 then
      let elig := eligibleBids maxPrice bids
      match (if preferred ≠ "" then findPreferred preferred elig else none) with
      | some pb => (some pb, bids, true)
      | none =>
        if elig.length > 0 then
          (selectLowest elig, bids, decide (r.elapsedAfter > 30000))
        else (best, bids, false)
    else (best, bids, false)

/-- Run the polling loop over a schedule of rounds.  Returns the final
`bestBid`, the final `bids` variable and the trace of rounds that actually
executed (a `break` discards the remaining schedule). -/
def runRounds (maxPrice : Option JsNum) (preferred : String) :
    List PollRound → Option Bid → List Bid → Option Bid × List Bid × List PollRound
  | [], best, lastBids => (best, lastBids, [])
  | r :: rs, best, lastBids =>
    let s := stepRound maxPrice preferred best lastBids r
    if s.2.2 then (s.1, s.2.1, [r])
    else
      let t := runRounds maxPrice preferred rs s.1 s.2.1
      (t.1, t.2.1, r :: t.2.2)

/-- A broadcast transaction result (the fields the handler reads). -/
structure TxResult where
  code : ℕ
  transactionHash : String
  height : ℕ
deriving DecidableEq

/-- Arguments of a `cosmosClient.createLease` call. -/
structure LeaseCall where
  dseq : String
  gseq : ℕ
  oseq : ℕ
  provider : String
deriving DecidableEq

/-- Arguments of a `consoleClient.sendManifest` call. -/
structure ManifestCall where
  owner : String
  dseq : String
  provider : String
deriving DecidableEq

/-- The `response.lease` object. -/
structure LeaseInfo where
  created : Bool
  transactionHash : String
  provider : String
  price : Coin
  gseq : ℕ
  oseq : ℕ
deriving DecidableEq

/-- The response object of the create operation.  `lease = some none`
models the explicit `response.lease = null`; outer `none` means the field
was never set. -/
structure CreateResponse where
  success : Bool
  dseq : String
  bidsReceived : Option ℕ
  lease : Option (Option LeaseInfo)
  message : Option String
  manifestSent : Option Bool
  manifestError : Option String
deriving DecidableEq

/-- The create-operation options collection.  `preferredProvider` is a
string where `""` models both the empty and the absent value (both falsy);
`bidWaitTime` governs only the wall-clock bound, which the round schedule
and the `pollStep` relation model. -/
structure CreateOptions where
  autoAcceptBid : Option Bool
  bidWaitTime : Option ℕ
  preferredProvider : String
  maxPrice : Option JsNum
  sendManifest : Option Bool
deriving DecidableEq

/-- Results of the transport calls the operation makes, plus the round
schedule observed by the polling loop. -/
structure CreateEnv where
  createResult : Except String (TxResult × String)
  rounds : List PollRound
  leaseResult : Except String TxResult
  manifestResult : Except String Unit
  owner : String
deriving DecidableEq

/-- The deployment-create handler after SDL validation (lines 545-666),
instrumented with the list of `createLease` and `sendManifest` calls it
makes.  `createDeployment` and `createLease` errors propagate; `getBids`
errors are absorbed by the loop `catch`; `sendManifest` errors are caught
and recorded on the response. -/
def executeCreate (opts : CreateOptions) (env : CreateEnv) :
    Except String CreateResponse × List LeaseCall × List ManifestCall :=
  match env.createResult with
  | .error e => (.error e, [], [])
  | .ok res =>
    let result := res.1
    let dseq := res.2
    let response0 : CreateResponse :=
      { success := result.code = 0, dseq := dseq, bidsReceived := none
      , lease := none, message := none, manifestSent := none, manifestError := none }
    if opts.autoAcceptBid ≠ some false then
      let pr := runRounds opts.maxPrice opts.preferredProvider env.rounds none []
      let response1 := { response0 with bidsReceived := some pr.2.1.length }
      match pr.1 with
      | some b =>
        let leaseCall : LeaseCall :=
          { dseq := dseq, gseq := b.bidId.gseq, oseq := b.bidId.oseq
          , provider := b.bidId.provider }
        match env.leaseResult with
        | .error e => (.error e, [leaseCall], [])
        | .ok leaseResult =>
          let response2 := { response1 with lease := some (some
              { created := leaseResult.code = 0
              , transactionHash := leaseResult.transactionHash
              , provider := b.bidId.provider
              , price := b.price
              , gseq := b.bidId.gseq
              , oseq := b.bidId.oseq }) }
          if opts.sendManifest ≠ some false ∧ leaseResult.code = 0 then
            let mCall : ManifestCall := ⟨env.owner, dseq, b.bidId.provider⟩
            match env.manifestResult with
            | .ok _ =>
              (.ok { response2 with manifestSent := some true }, [leaseCall], [mCall])
            | .error e =>
              (.ok { response2 with manifestSent := some false, manifestError := some e },
               [leaseCall], [mCall])
          else (.ok response2, [leaseCall], [])
      | none =>
        let response3 := { response1 with
          lease := some none
          message := some "No suitable bids received within the wait time" }
        (.ok response3, [], [])
    else (.ok response0, [], [])

/-- State of the timed polling loop: elapsed wall-clock milliseconds at the
loop head and number of completed rounds. -/
structure LoopState where
  elapsed : ℕ
  rounds : ℕ
deriving DecidableEq

/-- One polling round as a step of a timed step relation: the loop head
checks `Date.now() - startTime < bidWaitTime`, and the round then sleeps
`POLLING_INTERVALS.bidPolling = 3000` ms (plus whatever the `getBids` call
takes), so elapsed time grows by at least the poll interval. -/
def pollStep (limitMs : ℕ) (s t : LoopState) : Prop :=
  s.elapsed < limitMs ∧ t.rounds = s.rounds + 1 ∧
    s.elapsed + bidPollingInterval ≤ t.elapsed

/-! ## Claim-side specification predicates

These definitions follow the wording of the specification claims (for
comparison with the source-translated functions above). -/

/-- Claim-side conditions on one service: non-empty image, and (amending
the claim) each expose entry has a nonzero numeric port and a proto, when
present and non-empty, of `tcp` or `udp`. -/
def serviceClaimOK (s : SDLService) : Prop :=
  s.image ≠ "" ∧
  (∀ exps, s.expose = some exps → ∀ e ∈ exps,
    (∃ p, e.port = some p ∧ numTruthy p) ∧
    (∀ pr, e.proto = some pr → pr ≠ "" → pr = "tcp" ∨ pr = "udp"))

/-- Claim-side conditions on one compute profile: positive parsable
cpu.units, positive parsable memory.size, storage present, and (amending
the claim) a gpu block, when present, with a non-negative numeric units. -/
def computeClaimOK (c : SDLComputeProfile) : Prop :=
  ∃ r, c.resources = some r ∧
    (∃ cu, r.cpu = some cu ∧ ∃ u, cu.units = some u ∧ cpuUnitsTruthy u = true ∧
       ∃ v, cpuUnitsParse u = .ok v ∧ v.leB (JsNum.ofInt 0) = false) ∧
    (∃ m, r.memory = some m ∧ m.size ≠ "" ∧ ∃ v, parseMemorySize m.size = .ok v ∧ 0 < v) ∧
    r.storage.isSome = true ∧
    (∀ g, r.gpu = some g → ∃ u, g.units = some u ∧ u.ltB (JsNum.ofInt 0) = false)

/-- Claim-side conditions on one placement profile: a non-empty pricing
section whose entries have a denomination and a positive numeric amount. -/
def placementClaimOK (p : SDLPlacementProfile) : Prop :=
  ∃ l, p.pricing = some l ∧ l ≠ [] ∧
    ∀ q ∈ l, q.2.denom ≠ "" ∧ ∃ a, q.2.amount = some a ∧ a.leB (JsNum.ofInt 0) = false

/-- The claim-side validity condition of claim C3 (amended with the expose
and gpu checks): empty error list exactly when all of these hold. -/
def claimValidSDL (sdl : SDLManifest) : Prop :=
  (∃ v, sdl.version = some v ∧ (v = "2.0" ∨ v = "2.1")) ∧
  (∃ svcs, sdl.services = some svcs ∧ svcs ≠ [] ∧ ∀ p ∈ svcs, serviceClaimOK p.2) ∧
  (∃ pr, sdl.profiles = some pr ∧
    (∃ cl, pr.compute = some cl ∧ cl ≠ [] ∧ ∀ p ∈ cl, computeClaimOK p.2) ∧
    (∃ pl, pr.placement = some pl ∧ pl ≠ [] ∧ ∀ p ∈ pl, placementClaimOK p.2)) ∧
  (∃ dl, sdl.deployment = some dl ∧ dl ≠ [] ∧ ∀ pl ∈ dl,
    (placementLookup sdl pl.1).isSome = true ∧ ∀ sc ∈ pl.2,
      (serviceLookup sdl sc.1).isSome = true ∧
      (computeLookup sdl sc.2.profile).isSome = true ∧
      ∃ c, sc.2.count = some c ∧ c.ltB (JsNum.ofInt 1) = false)

/-- The compute-profile conditions exactly as claim C3 lists them (no gpu
condition): positive parsable cpu.units, positive parsable memory.size,
storage present. -/
def computeClaimOrig (c : SDLComputeProfile) : Prop :=
  ∃ r, c.resources = some r ∧
    (∃ cu, r.cpu = some cu ∧ ∃ u, cu.units = some u ∧ cpuUnitsTruthy u = true ∧
       ∃ v, cpuUnitsParse u = .ok v ∧ v.leB (JsNum.ofInt 0) = false) ∧
    (∃ m, r.memory = some m ∧ m.size ≠ "" ∧ ∃ v, parseMemorySize m.size = .ok v ∧ 0 < v) ∧
    r.storage.isSome = true

/-- The validity condition exactly as claim C3 states it: services only need
a non-empty image, and compute profiles are checked per `computeClaimOrig`
(no expose and no gpu conditions). -/
def claimValidSDLOrig (sdl : SDLManifest) : Prop :=
  (∃ v, sdl.version = some v ∧ (v = "2.0" ∨ v = "2.1")) ∧
  (∃ svcs, sdl.services = some svcs ∧ svcs ≠ [] ∧ ∀ p ∈ svcs, p.2.image ≠ "") ∧
  (∃ pr, sdl.profiles = some pr ∧
    (∃ cl, pr.compute = some cl ∧ cl ≠ [] ∧ ∀ p ∈ cl, computeClaimOrig p.2) ∧
    (∃ pl, pr.placement = some pl ∧ pl ≠ [] ∧ ∀ p ∈ pl, placementClaimOK p.2)) ∧
  (∃ dl, sdl.deployment = some dl ∧ dl ≠ [] ∧ ∀ pl ∈ dl,
    (placementLookup sdl pl.1).isSome = true ∧ ∀ sc ∈ pl.2,
      (serviceLookup sdl sc.1).isSome = true ∧
      (computeLookup sdl sc.2.profile).isSome = true ∧
      ∃ c, sc.2.count = some c ∧ c.ltB (JsNum.ofInt 1) = false)

/-- Claim-side description of one converted resource entry (claim C2): the
cpu units string is `round(parseCpuUnits(units) * 1000)`, the memory
quantity string is `parseMemorySize(size)`, each storage quantity string is
`parseMemorySize` of its size, the count is the placement entry count, and
the price is the placement pricing denom with `aktToUakt(amount)`. -/
def entryClaimSpec (sdl : SDLManifest) (pname : String)
    (sc : String × SDLDeployConfig) (e : ResourceGroup) : Prop :=
  ∃ cp r, computeLookup sdl sc.2.profile = some cp ∧ cp.resources = some r ∧
    (∃ cu u v, r.cpu = some cu ∧ cu.units = some u ∧ cpuUnitsParse u = .ok v ∧
       e.resources.cpu.units.val = intDecString (v.scaleMul 1000).round) ∧
    (∃ m bytes, r.memory = some m ∧ parseMemorySize m.size = .ok bytes ∧
       e.resources.memory.quantity.val = intDecString bytes) ∧
    (∃ sf, r.storage = some sf ∧
       List.Forall₂ (fun (s : SDLStorage) (sr : StorageResource) =>
           ∃ v, parseMemorySize s.size = .ok v ∧ sr.quantity.val = intDecString v)
         (storageListOf sf) e.resources.storage) ∧
    e.count = sc.2.count ∧
    (∃ pp pl pc amt, placementLookup sdl pname = some pp ∧ pp.pricing = some pl ∧
       pl.lookup sc.2.profile = some pc ∧ aktToUaktOptNum pc.amount = .ok amt ∧
       e.price = { denom := pc.denom, amount := amt })

/-- Claim-side description of one group (claim C2): named after the
placement, one resource entry per service of the placement. -/
def groupClaimSpec (sdl : SDLManifest)
    (pl : String × List (String × SDLDeployConfig)) (g : GroupSpec) : Prop :=
  g.name = pl.1 ∧ List.Forall₂ (entryClaimSpec sdl pl.1) pl.2 g.resources

/-- Amending hypothesis for claim C2: every storage size reachable from a
deployment entry parses. -/
def storageSizesParse (sdl : SDLManifest) : Prop :=
  ∀ dl, sdl.deployment = some dl → ∀ pl ∈ dl, ∀ sc ∈ pl.2,
    ∀ cp r sf, computeLookup sdl sc.2.profile = some cp → cp.resources = some r →
      r.storage = some sf → ∀ s ∈ storageListOf sf, ∃ v, parseMemorySize s.size = .ok v

/-- Amending hypothesis for claim C2: the placement pricing section of each
deployment entry has a pricing entry for the referenced compute profile. -/
def pricingCovers (sdl : SDLManifest) : Prop :=
  ∀ dl, sdl.deployment = some dl → ∀ pl ∈ dl, ∀ sc ∈ pl.2,
    ∀ pp, placementLookup sdl pl.1 = some pp →
      ∃ l, pp.pricing = some l ∧ (l.lookup sc.2.profile).isSome = true

/-- Claim-side price of one resource entry (claim C9): the entry price
amount (a decimal string) times its count, in exact integer arithmetic. -/
def entryPriceTimesCount (e : ResourceGroup) : Option ℤ := do
  let a ← jsBigIntOfString e.price.amount
  let c ← match e.count with
    | some d => if d.isInt then some d.toInt else none
    | none => none
  pure (a * c)

/-- Claim-side total over all groups and entries (claim C9). -/
def groupsPriceSum (gs : List GroupSpec) : Option ℤ := do
  let vals ← (gs.flatMap (fun g => g.resources)).mapM entryPriceTimesCount
  pure vals.sum

/-- Decimal string of a digit-list literal `ip . fp` (claim C6). -/
def decimalStrOf (ip fp : List ℕ) : List Char :=
  ip.map digitChar ++ (if fp = [] then [] else '.' :: fp.map digitChar)

/-- Rational value of a digit-list literal `ip . fp` (claim C6). -/
def decimalValOf (ip fp : List ℕ) : ℚ :=
  (digitsVal ip : ℚ) + (digitsVal fp : ℚ) / 10 ^ fp.length

/-- Well-formed digit list: every entry is a decimal digit. -/
def DigitList (ds : List ℕ) : Prop := ∀ d ∈ ds, d < 10

/-! ## Concrete sample data for witnesses and counterexamples -/

/-- The `web` service of the repository test fixture `VALID_SDL`. -/
def webSampleService : SDLService :=
  { image := "nginx:latest"
  , expose := some [{ port := some ⟨80, 0⟩, proto := none
                    , toPart := some [{ global := some true, service := none }] }] }

/-- The `web` compute profile of `VALID_SDL`. -/
def webSampleCompute : SDLComputeProfile :=
  { resources := some
      { cpu := some { units := some (.num ⟨5, 1⟩) }
      , memory := some { size := "512Mi" }
      , storage := some (.many [{ size := "1Gi", name := none, sclass := none }])
      , gpu := none } }

/-- The `dcloud` placement profile of `VALID_SDL`. -/
def dcloudSamplePlacement : SDLPlacementProfile :=
  { attributes := none, signedBy := none
  , pricing := some [("web", { denom := "uakt", amount := some ⟨1000, 0⟩ })] }

/-- The repository test fixture `VALID_SDL` as a parsed manifest. -/
def sampleManifest : SDLManifest :=
  { version := some "2.0"
  , services := some [("web", webSampleService)]
  , profiles := some { compute := some [("web", webSampleCompute)]
                     , placement := some [("dcloud", dcloudSamplePlacement)] }
  , deployment := some [("dcloud", [("web", { profile := "web", count := some ⟨1, 0⟩ })])] }

/-- `sampleManifest` with an invalid expose proto (`xyz`): all conditions
listed by claim C3 hold, yet validation reports an error. -/
def badProtoManifest : SDLManifest :=
  { sampleManifest with services := some [("web",
      { image := "nginx:latest"
      , expose := some [{ port := some ⟨80, 0⟩, proto := some "xyz"
                        , toPart := some [{ global := some true, service := none }] }] })] }

/-- `sampleManifest` with an unparsable storage size: accepted by
`validateSDL` (which only checks storage presence) but `sdlToGroups`
throws. -/
def badStorageManifest : SDLManifest :=
  { sampleManifest with profiles := some {
      compute := some [("web",
          { resources := some
              { cpu := some { units := some (.num ⟨5, 1⟩) }
              , memory := some { size := "512Mi" }
              , storage := some (.many [{ size := "huge", name := none, sclass := none }])
              , gpu := none } })]
      placement := some [("dcloud", dcloudSamplePlacement)] } }

/-- The resource units `convertResources` produces for the `web` service of
`sampleManifest`. -/
def sampleRU : ResourceUnits :=
  { cpu := ⟨⟨"500"⟩⟩
  , memory := ⟨⟨"536870912"⟩⟩
  , storage := [{ name := "default", quantity := ⟨"1073741824"⟩, attributes := none }]
  , gpu := none
  , endpoints := some [{ kind := 1, sequenceNumber := 0 }] }

/-- The group specs `sdlToGroups` produces for `sampleManifest`. -/
def sampleGroups : List GroupSpec :=
  [{ name := "dcloud"
   , requirements := { attributes := none, signedBy := none }
   , resources := [{ resources := sampleRU, count := some ⟨1, 0⟩
                   , price := ⟨"uakt", "1000000000"⟩ }] }]

/-- Create options with every option left at its default. -/
def defaultCreateOptions : CreateOptions :=
  { autoAcceptBid := none, bidWaitTime := none, preferredProvider := ""
  , maxPrice := none, sendManifest := none }

/-- A bid sample used by witnesses. -/
def sampleBid : Bid :=
  { bidId := { owner := "akash1owner", dseq := "100", gseq := 1, oseq := 1
             , provider := "akash1prov" }
  , price := { denom := "uakt", amount := "50" } }

/-- Environment in which the only polling round sees a `getBids` exception
and the manifest call would fail too. -/
def getBidsErrEnv : CreateEnv :=
  { createResult := .ok ({ code := 0, transactionHash := "AB", height := 10 }, "100")
  , rounds := [{ bids := none, elapsedAfter := 3000 }]
  , leaseResult := .ok { code := 0, transactionHash := "LH", height := 11 }
  , manifestResult := .error "manifest boom"
  , owner := "akash1owner" }

/-- Environment in which one round returns `sampleBid` after the 30-second
mark and the manifest call fails. -/
def manifestErrEnv : CreateEnv :=
  { createResult := .ok ({ code := 0, transactionHash := "AB", height := 10 }, "100")
  , rounds := [{ bids := some [sampleBid], elapsedAfter := 31000 }]
  , leaseResult := .ok { code := 0, transactionHash := "LH", height := 11 }
  , manifestResult := .error "manifest boom"
  , owner := "akash1owner" }

/-- Environment in which the lease transaction itself throws. -/
def leaseErrEnv : CreateEnv :=
  { manifestErrEnv with leaseResult := .error "lease boom" }

/-- A one-round schedule observing `sampleBid` after the 30-second mark. -/
def sampleRounds : List PollRound :=
  [{ bids := some [sampleBid], elapsedAfter := 31000 }]

/-- A well-formed `createSimpleSDL` options record. -/
def sampleSimpleOpts : SimpleSDLOpts :=
  { serviceName := "web", image := "nginx:latest", cpu := ⟨5, 1⟩
  , memory := "512Mi", storage := "1Gi", port := some ⟨80, 0⟩
  , env := none, replicas := none, maxPrice := none }

/-- The same options with an empty image: every constraint listed by claim
C10 still holds, yet the produced SDL fails validation. -/
def sampleSimpleOptsNoImage : SimpleSDLOpts :=
  { sampleSimpleOpts with image := "" }

/-! # Lemmas and claim theorems -/

lemma ltB_ofInt_zero_iff (d : JsNum) : (JsNum.ofInt 0).ltB d = true ↔ 0 < d.man := by
  have h : (0 : ℤ) < 10 ^ d.exp := by positivity
  simp [JsNum.ltB, JsNum.ofInt]

lemma numTruthy_of_pos {d : JsNum} (h : (JsNum.ofInt 0).ltB d = true) :
    numTruthy d = true := by
  rw [ltB_ofInt_zero_iff] at h
  simp [numTruthy]
  omega

lemma eligibleBids_subset {m : Option JsNum} {b : Bid} {bids : List Bid}
    (h : b ∈ eligibleBids m bids) : b ∈ bids := by
  cases m with
  | none => exact h
  | some mp =>
    simp only [eligibleBids] at h
    by_cases hc : (numTruthy mp && (JsNum.ofInt 0).ltB mp) = true
    · rw [if_pos hc] at h
      exact List.mem_of_mem_filter h
    · rw [if_neg hc] at h
      exact h

lemma eligibleBids_price {b : Bid} {bids : List Bid} {mp : JsNum}
    (hmp : (JsNum.ofInt 0).ltB mp = true) (h : b ∈ eligibleBids (some mp) bids) :
    priceLeMax b mp = true := by
  simp only [eligibleBids] at h
  rw [if_pos (by simp [numTruthy_of_pos hmp, hmp])] at h
  exact (List.mem_filter.mp h).2

lemma lowerPrice_self (b : Bid) : lowerPrice b b = false := by
  cases h : jsParseInt b.price.amount with
  | none => simp [lowerPrice, h]
  | some v => simp [lowerPrice, h]

lemma lowerPrice_none {q b : Bid} (h : jsParseInt b.price.amount = none) :
    lowerPrice q b = false := by
  cases hq : jsParseInt q.price.amount with
  | none => simp [lowerPrice, h, hq]
  | some v => simp [lowerPrice, h, hq]

/-- If `c` is strictly below `p` and not strictly below `res`, then `p` is
not strictly below `res`. -/
lemma lowerPrice_step {c p res : Bid} (h1 : lowerPrice c p = true)
    (h2 : lowerPrice c res = false) : lowerPrice p res = false := by
  cases hc : jsParseInt c.price.amount with
  | none => simp [lowerPrice, hc] at h1
  | some vc =>
    cases hp : jsParseInt p.price.amount with
    | none => simp [lowerPrice, hc, hp] at h1
    | some vp =>
      cases hres : jsParseInt res.price.amount with
      | none => simp [lowerPrice, hp, hres]
      | some vres =>
        simp only [lowerPrice, hc, hp, hres, decide_eq_true_eq, decide_eq_false_iff_not] at h1 h2 ⊢
        omega

/-- If `c` is not strictly below `p` and `p` is not strictly below `res`,
then `c` is not strictly below `res` (given `p` has a numeric price). -/
lemma lowerPrice_step2 {c p res : Bid} {vp : ℤ}
    (hp : jsParseInt p.price.amount = some vp)
    (h1 : lowerPrice c p = false) (h2 : lowerPrice p res = false) :
    lowerPrice c res = false := by
  cases hc : jsParseInt c.price.amount with
  | none => simp [lowerPrice, hc]
  | some vc =>
    cases hres : jsParseInt res.price.amount with
    | none => simp [lowerPrice, hc, hres]
    | some vres =>
      simp only [lowerPrice, hc, hp, hres, decide_eq_true_eq, decide_eq_false_iff_not] at h1 h2 ⊢
      omega

/-- A bid with a `NaN` price is absorbing for the `reduce` step. -/
lemma selectFold_nan {acc : Bid} (h : jsParseInt acc.price.amount = none)
    (bs : List Bid) :
    bs.foldl (fun prev curr => if lowerPrice curr prev then curr else prev) acc = acc := by
  induction bs with
  | nil => rfl
  | cons c rest ih =>
    have hstep : lowerPrice c acc = false := lowerPrice_none h
    simp [hstep, ih]

lemma selectFold_mem (acc : Bid) (bs : List Bid) :
    bs.foldl (fun prev curr => if lowerPrice curr prev then curr else prev) acc = acc ∨
    bs.foldl (fun prev curr => if lowerPrice curr prev then curr else prev) acc ∈ bs := by
  induction bs generalizing acc with
  | nil => exact Or.inl rfl
  | cons c rest ih =>
    simp only [List.foldl_cons]
    rcases ih (if lowerPrice c acc then c else acc) with h | h
    · rw [h]
      by_cases hc : lowerPrice c acc = true
      · rw [if_pos hc]
        exact Or.inr (List.mem_cons_self _ _)
      · rw [if_neg hc]
        exact Or.inl rfl
    · exact Or.inr (List.mem_cons_of_mem _ h)

lemma selectFold_min (acc : Bid) (bs : List Bid) :
    ∀ q, (q = acc ∨ q ∈ bs) →
      lowerPrice q (bs.foldl (fun prev curr => if lowerPrice curr prev then curr else prev) acc) = false := by
  induction bs generalizing acc with
  | nil =>
    intro q hq
    rcases hq with h | h
    · subst h; exact lowerPrice_self q
    · simp at h
  | cons c rest ih =>
    intro q hq
    simp only [List.foldl_cons]
    by_cases hc : lowerPrice c acc = true
    · rw [if_pos hc]
      rcases hq with h | h
      · subst h
        exact lowerPrice_step hc (ih c c (Or.inl rfl))
      · rcases List.mem_cons.mp h with h1 | h1
        · exact ih c q (Or.inl h1)
        · exact ih c q (Or.inr h1)
    · rw [if_neg hc]
      rcases hq with h | h
      · exact ih acc q (Or.inl h)
      · rcases List.mem_cons.mp h with h1 | h1
        · subst h1
          rw [Bool.not_eq_true] at hc
          cases hacc : jsParseInt acc.price.amount with
          | none => rw [selectFold_nan hacc]; exact lowerPrice_none hacc
          | some va => exact lowerPrice_step2 hacc hc (ih acc acc (Or.inl rfl))
        · exact ih acc q (Or.inr h1)

lemma selectLowest_mem {l : List Bid} {b : Bid} (h : selectLowest l = some b) : b ∈ l := by
  cases l with
  | nil => simp [selectLowest] at h
  | cons a bs =>
    unfold selectLowest at h
    injection h with h
    rcases selectFold_mem a bs with h1 | h1
    · rw [← h, h1]; exact List.mem_cons_self _ _
    · rw [← h]; exact List.mem_cons_of_mem _ h1

lemma selectLowest_min {l : List Bid} {b : Bid} (h : selectLowest l = some b) :
    ∀ q ∈ l, lowerPrice q b = false := by
  cases l with
  | nil => simp [selectLowest] at h
  | cons a bs =>
    unfold selectLowest at h
    injection h with h
    intro q hq
    rw [← h]
    rcases List.mem_cons.mp hq with h1 | h1
    · exact selectFold_min a bs q (Or.inl h1)
    · exact selectFold_min a bs q (Or.inr h1)

lemma findPreferred_provider {p : String} {l : List Bid} {b : Bid}
    (h : findPreferred p l = some b) : b.bidId.provider = p := by
  have := List.find?_some h
  simpa using this

lemma findPreferred_mem {p : String} {l : List Bid} {b : Bid}
    (h : findPreferred p l = some b) : b ∈ l :=
  List.mem_of_find?_eq_some h

lemma findPreferred_isSome {p : String} {l : List Bid} {pb : Bid}
    (hmem : pb ∈ l) (hprov : pb.bidId.provider = p) :
    ∃ q, findPreferred p l = some q := by
  cases hf : findPreferred p l with
  | some q => exact ⟨q, rfl⟩
  | none =>
    have := List.find?_eq_none.mp hf pb hmem
    simp [hprov] at this

/-- Case analysis on the updated `bestBid` of one loop body. -/
lemma stepRound_best {m : Option JsNum} {p : String} {best : Option Bid}
    {lb : List Bid} {r : PollRound} {b : Bid}
    (h : (stepRound m p best lb r).1 = some b) :
    best = some b ∨ ∃ bids, r.bids = some bids ∧ b ∈ eligibleBids m bids := by
  cases hr : r.bids with
  | none =>
    simp only [stepRound, hr] at h
    exact Or.inl h
  | some bids =>
    simp only [stepRound, hr] at h
    by_cases hlen : bids.length > 0
    · rw [if_pos hlen] at h
      cases hf : (if p ≠ "" then findPreferred p (eligibleBids m bids) else none) with
      | some pb =>
        rw [hf] at h
        simp only at h
        injection h with h
        refine Or.inr ⟨bids, rfl, ?_⟩
        subst h
        by_cases hp : p ≠ ""
        · rw [if_pos hp] at hf
          exact findPreferred_mem hf
        · rw [if_neg hp] at hf
          exact absurd hf (by simp)
      | none =>
        rw [hf] at h
        simp only at h
        by_cases he : (eligibleBids m bids).length > 0
        · rw [if_pos he] at h
          simp only at h
          exact Or.inr ⟨bids, rfl, selectLowest_mem h⟩
        · rw [if_neg he] at h
          exact Or.inl h
    · rw [if_neg hlen] at h
      exact Or.inl h

/-- If a processed round holds an eligible bid from the (set) preferred
provider, the loop body selects a preferred bid and breaks. -/
lemma stepRound_preferred {m : Option JsNum} {p : String} {best : Option Bid}
    {lb : List Bid} {r : PollRound} {bids : List Bid} {pb : Bid}
    (hp : p ≠ "") (hr : r.bids = some bids) (hmem : pb ∈ eligibleBids m bids)
    (hprov : pb.bidId.provider = p) :
    ∃ q, (stepRound m p best lb r).1 = some q ∧ (stepRound m p best lb r).2.2 = true ∧
      q ∈ eligibleBids m bids ∧ q.bidId.provider = p := by
  obtain ⟨q, hq⟩ := findPreferred_isSome hmem hprov
  have hlen : bids.length > 0 :=
    List.length_pos.mpr (List.ne_nil_of_mem (eligibleBids_subset hmem))
  refine ⟨q, ?_⟩
  simp only [stepRound, hr, if_pos hlen, if_pos hp, hq]
  exact ⟨trivial, trivial, findPreferred_mem hq, findPreferred_provider hq⟩

/-- If the round holds no eligible bid from the preferred provider (or no
preferred provider is set), the loop body either keeps the old best bid or
selects a price-minimal eligible bid. -/
lemma stepRound_noPreferred {m : Option JsNum} {p : String} {best : Option Bid}
    {lb : List Bid} {r : PollRound} {b : Bid}
    (hnp : p = "" ∨ ∀ bids, r.bids = some bids →
      ∀ q ∈ eligibleBids m bids, q.bidId.provider ≠ p)
    (h : (stepRound m p best lb r).1 = some b) :
    best = some b ∨ ∃ bids, r.bids = some bids ∧ b ∈ eligibleBids m bids ∧
      ∀ q ∈ eligibleBids m bids, lowerPrice q b = false := by
  cases hr : r.bids with
  | none =>
    simp only [stepRound, hr] at h
    exact Or.inl h
  | some bids =>
    simp only [stepRound, hr] at h
    by_cases hlen : bids.length > 0
    · rw [if_pos hlen] at h
      cases hf : (if p ≠ "" then findPreferred p (eligibleBids m bids) else none) with
      | some pb =>
        exfalso
        by_cases hp : p ≠ ""
        · rw [if_pos hp] at hf
          rcases hnp with hnp | hnp
          · exact hp hnp
          · exact hnp bids hr pb (findPreferred_mem hf) (findPreferred_provider hf)
        · rw [if_neg hp] at hf
          exact Option.noConfusion hf
      | none =>
        rw [hf] at h
        simp only at h
        by_cases he : (eligibleBids m bids).length > 0
        · rw [if_pos he] at h
          simp only at h
          exact Or.inr ⟨bids, rfl, selectLowest_mem h, selectLowest_min h⟩
        · rw [if_neg he] at h
          exact Or.inl h
    · rw [if_neg hlen] at h
      exact Or.inl h

/-- Rounds in the trace come from the schedule. -/
lemma runRounds_trace_sub {m : Option JsNum} {p : String} :
    ∀ {rs : List PollRound} {best : Option Bid} {lb : List Bid} {r : PollRound},
      r ∈ (runRounds m p rs best lb).2.2 → r ∈ rs := by
  intro rs
  induction rs with
  | nil => intro best lb r h; simp [runRounds] at h
  | cons r0 rest ih =>
    intro best lb r h
    simp only [runRounds] at h
    by_cases hb : (stepRound m p best lb r0).2.2 = true
    · rw [if_pos hb] at h
      simp at h
      simp [h]
    · rw [if_neg hb] at h
      simp only [List.mem_cons] at h
      rcases h with h | h
      · simp [h]
      · exact List.mem_cons_of_mem _ (ih h)

/-- Any selected bid is an eligible bid of some round of the schedule. -/
lemma runRounds_best_cases {m : Option JsNum} {p : String} :
    ∀ {rs : List PollRound} {best : Option Bid} {lb : List Bid} {b : Bid},
      (runRounds m p rs best lb).1 = some b →
      best = some b ∨ ∃ r ∈ rs, ∃ bids, r.bids = some bids ∧ b ∈ eligibleBids m bids := by
  intro rs
  induction rs with
  | nil =>
    intro best lb b h
    simp only [runRounds] at h
    exact Or.inl h
  | cons r0 rest ih =>
    intro best lb b h
    simp only [runRounds] at h
    by_cases hb : (stepRound m p best lb r0).2.2 = true
    · rw [if_pos hb] at h
      simp only at h
      rcases stepRound_best h with h1 | ⟨bids, hbids, hmem⟩
      · exact Or.inl h1
      · exact Or.inr ⟨r0, List.mem_cons_self _ _, bids, hbids, hmem⟩
    · rw [if_neg hb] at h
      simp only at h
      rcases ih h with h1 | ⟨r, hr, bids, hbids, hmem⟩
      · rcases stepRound_best h1 with h2 | ⟨bids, hbids, hmem⟩
        · exact Or.inl h2
        · exact Or.inr ⟨r0, List.mem_cons_self _ _, bids, hbids, hmem⟩
      · exact Or.inr ⟨r, List.mem_cons_of_mem _ hr, bids, hbids, hmem⟩

/-- If a processed round contains an eligible bid of the preferred provider
(unique among the eligible bids of its round), that bid is the final
selection. -/
lemma runRounds_preferred {m : Option JsNum} {p : String} (hp : p ≠ "") :
    ∀ {rs : List PollRound} {best : Option Bid} {lb : List Bid} {r : PollRound}
      {bids : List Bid} {pb : Bid},
      r ∈ (runRounds m p rs best lb).2.2 → r.bids = some bids →
      pb ∈ eligibleBids m bids → pb.bidId.provider = p →
      (∀ q ∈ eligibleBids m bids, q.bidId.provider = p → q = pb) →
      (runRounds m p rs best lb).1 = some pb := by
  intro rs
  induction rs with
  | nil =>
    intro best lb r bids pb h
    simp [runRounds] at h
  | cons r0 rest ih =>
    intro best lb r bids pb htr hbids hmem hprov huniq
    simp only [runRounds] at htr ⊢
    by_cases hb : (stepRound m p best lb r0).2.2 = true
    · rw [if_pos hb] at htr ⊢
      simp only [List.mem_singleton] at htr
      subst htr
      obtain ⟨q, hq1, _, hq3, hq4⟩ :=
        @stepRound_preferred m p best lb r bids pb hp hbids hmem hprov
      simp only
      rw [hq1, huniq q hq3 hq4]
    · rw [if_neg hb] at htr ⊢
      simp only [List.mem_cons] at htr
      rcases htr with h | h
      · exfalso
        subst h
        obtain ⟨q, _, hq2, _, _⟩ :=
          @stepRound_preferred m p best lb r bids pb hp hbids hmem hprov
        exact hb hq2
      · exact ih h hbids hmem hprov huniq

/-- When no processed round offers an eligible bid of the preferred
provider (or none is set), the final selection is a price-minimal eligible
bid of the round in which it was assigned. -/
lemma runRounds_min {m : Option JsNum} {p : String} :
    ∀ {rs : List PollRound} {best : Option Bid} {lb : List Bid} {b : Bid},
      (p = "" ∨ ∀ r ∈ (runRounds m p rs best lb).2.2, ∀ bids, r.bids = some bids →
        ∀ q ∈ eligibleBids m bids, q.bidId.provider ≠ p) →
      (runRounds m p rs best lb).1 = some b →
      best = some b ∨ ∃ r ∈ (runRounds m p rs best lb).2.2, ∃ bids,
        r.bids = some bids ∧ b ∈ eligibleBids m bids ∧
        ∀ q ∈ eligibleBids m bids, lowerPrice q b = false := by
  intro rs
  induction rs with
  | nil =>
    intro best lb b _ h
    simp only [runRounds] at h
    exact Or.inl h
  | cons r0 rest ih =>
    intro best lb b hnp h
    simp only [runRounds] at hnp h ⊢
    by_cases hb : (stepRound m p best lb r0).2.2 = true
    · rw [if_pos hb] at hnp h ⊢
      simp only at h
      have hnp0 : p = "" ∨ ∀ bids, r0.bids = some bids →
          ∀ q ∈ eligibleBids m bids, q.bidId.provider ≠ p := by
        rcases hnp with h1 | h1
        · exact Or.inl h1
        · exact Or.inr (h1 r0 (List.mem_singleton.mpr rfl))
      rcases stepRound_noPreferred hnp0 h with h1 | ⟨bids, hbids, hmem, hmin⟩
      · exact Or.inl h1
      · exact Or.inr ⟨r0, List.mem_singleton.mpr rfl, bids, hbids, hmem, hmin⟩
    · rw [if_neg hb] at hnp h ⊢
      simp only at h
      have hnpRest : p = "" ∨
          ∀ r ∈ (runRounds m p rest (stepRound m p best lb r0).1
                  (stepRound m p best lb r0).2.1).2.2,
            ∀ bids, r.bids = some bids →
              ∀ q ∈ eligibleBids m bids, q.bidId.provider ≠ p := by
        rcases hnp with h1 | h1
        · exact Or.inl h1
        · exact Or.inr (fun r hr => h1 r (List.mem_cons_of_mem _ hr))
      rcases ih hnpRest h with h1 | ⟨r, hr, bids, hbids, hmem, hmin⟩
      · have hnp0 : p = "" ∨ ∀ bids, r0.bids = some bids →
            ∀ q ∈ eligibleBids m bids, q.bidId.provider ≠ p := by
          rcases hnp with h2 | h2
          · exact Or.inl h2
          · exact Or.inr (h2 r0 (List.mem_cons_self _ _))
        rcases stepRound_noPreferred hnp0 h1 with h2 | ⟨bids, hbids, hmem, hmin⟩
        · exact Or.inl h2
        · exact Or.inr ⟨r0, List.mem_cons_self _ _, bids, hbids, hmem, hmin⟩
      · exact Or.inr ⟨r, List.mem_cons_of_mem _ hr, bids, hbids, hmem, hmin⟩

/-- Claim C1: with auto-accept enabled, (a) when a positive maximum price
is set the accepted bid satisfies the price bound; (b) when a preferred
provider is set and a polling round observes an eligible bid from it, that
bid is selected; (c) otherwise the selected bid has the minimum price
amount among the eligible bids of the round in which selection occurred.
The bids observed by the loop are assumed to carry numeric price amounts,
as the claim presupposes by speaking of their price amounts. -/
theorem C1_bid_selection (maxPrice : Option JsNum) (preferred : String)
    (rounds : List PollRound)
    (hnum : ∀ r ∈ rounds, ∀ bids, r.bids = some bids → ∀ b ∈ bids,
      (jsParseInt b.price.amount).isSome = true) :
    (∀ b mp, (runRounds maxPrice preferred rounds none []).1 = some b →
      maxPrice = some mp → (JsNum.ofInt 0).ltB mp = true → priceLeMax b mp = true) ∧
    (preferred ≠ "" → ∀ r ∈ (runRounds maxPrice preferred rounds none []).2.2,
      ∀ bids pb, r.bids = some bids → pb ∈ eligibleBids maxPrice bids →
      pb.bidId.provider = preferred →
      (∀ q ∈ eligibleBids maxPrice bids, q.bidId.provider = preferred → q = pb) →
      (runRounds maxPrice preferred rounds none []).1 = some pb) ∧
    ((preferred = "" ∨ ∀ r ∈ (runRounds maxPrice preferred rounds none []).2.2,
        ∀ bids, r.bids = some bids → ∀ q ∈ eligibleBids maxPrice bids,
          q.bidId.provider ≠ preferred) →
      ∀ b, (runRounds maxPrice preferred rounds none []).1 = some b →
        ∃ r ∈ (runRounds maxPrice preferred rounds none []).2.2, ∃ bids,
          r.bids = some bids ∧ b ∈ eligibleBids maxPrice bids ∧
          ∃ nb, jsParseInt b.price.amount = some nb ∧
            ∀ q ∈ eligibleBids maxPrice bids, ∀ nq,
              jsParseInt q.price.amount = some nq → nb ≤ nq) := by
  refine ⟨?_, ?_, ?_⟩
  · intro b mp hres hmp hpos
    subst hmp
    rcases runRounds_best_cases hres with h | ⟨r, _, bids, _, hmem⟩
    · exact absurd h (by simp)
    · exact eligibleBids_price hpos hmem
  · intro hp r hr bids pb hbids hmem hprov huniq
    exact runRounds_preferred hp hr hbids hmem hprov huniq
  · intro hnp b hres
    rcases runRounds_min hnp hres with h | ⟨r, hr, bids, hbids, hmem, hmin⟩
    · exact absurd h (by simp)
    · refine ⟨r, hr, bids, hbids, hmem, ?_⟩
      have hrIn : r ∈ rounds := runRounds_trace_sub hr
      have hbNum := hnum r hrIn bids hbids b (eligibleBids_subset hmem)
      rcases Option.isSome_iff_exists.mp hbNum with ⟨nb, hnb⟩
      refine ⟨nb, hnb, ?_⟩
      intro q hq nq hnq
      have hlow := hmin q hq
      simp only [lowerPrice, hnq, hnb, decide_eq_false_iff_not] at hlow
      omega

/-- Witness for C1 at a concrete schedule: one round offering `sampleBid`
from the preferred provider under a max price of 100. -/
theorem C1_bid_selection_witness :
    (∀ r ∈ sampleRounds, ∀ bids, r.bids = some bids → ∀ b ∈ bids,
      (jsParseInt b.price.amount).isSome = true) ∧
    ((∀ b mp, (runRounds (some ⟨100, 0⟩) "akash1prov" sampleRounds none []).1 = some b →
      some (⟨100, 0⟩ : JsNum) = some mp → (JsNum.ofInt 0).ltB mp = true →
      priceLeMax b mp = true) ∧
    ("akash1prov" ≠ "" → ∀ r ∈ (runRounds (some ⟨100, 0⟩) "akash1prov" sampleRounds none []).2.2,
      ∀ bids pb, r.bids = some bids → pb ∈ eligibleBids (some ⟨100, 0⟩) bids →
      pb.bidId.provider = "akash1prov" →
      (∀ q ∈ eligibleBids (some ⟨100, 0⟩) bids, q.bidId.provider = "akash1prov" → q = pb) →
      (runRounds (some ⟨100, 0⟩) "akash1prov" sampleRounds none []).1 = some pb) ∧
    (("akash1prov" = "" ∨ ∀ r ∈ (runRounds (some ⟨100, 0⟩) "akash1prov" sampleRounds none []).2.2,
        ∀ bids, r.bids = some bids → ∀ q ∈ eligibleBids (some ⟨100, 0⟩) bids,
          q.bidId.provider ≠ "akash1prov") →
      ∀ b, (runRounds (some ⟨100, 0⟩) "akash1prov" sampleRounds none []).1 = some b →
        ∃ r ∈ (runRounds (some ⟨100, 0⟩) "akash1prov" sampleRounds none []).2.2, ∃ bids,
          r.bids = some bids ∧ b ∈ eligibleBids (some ⟨100, 0⟩) bids ∧
          ∃ nb, jsParseInt b.price.amount = some nb ∧
            ∀ q ∈ eligibleBids (some ⟨100, 0⟩) bids, ∀ nq,
              jsParseInt q.price.amount = some nq → nb ≤ nq)) :=
  ⟨by decide, C1_bid_selection (some ⟨100, 0⟩) "akash1prov" sampleRounds (by decide)⟩

/-- Claim C5: the polling loop is bounded.  Any chain of polling rounds
(each advancing elapsed time by at least the 3000 ms poll interval, each
entered only while elapsed time is below the configured wait) has length at
most `⌈bidWaitTime * 1000 / 3000⌉`. -/
theorem C5_poll_loop_bounded (bidWaitTime n : ℕ) (f : ℕ → LoopState)
    (hlo : 30 ≤ bidWaitTime) (hhi : bidWaitTime ≤ 600)
    (hchain : ∀ k, k < n → pollStep (bidWaitTime * 1000) (f k) (f (k + 1))) :
    n ≤ (bidWaitTime * 1000 + (bidPollingInterval - 1)) / bidPollingInterval := by
  have hgrow : ∀ k, k ≤ n → bidPollingInterval * k + (f 0).elapsed ≤ (f k).elapsed := by
    intro k
    induction k with
    | zero => intro _; simp
    | succ m ih =>
      intro hm
      have h1 := ih (Nat.le_of_succ_le hm)
      have h2 := (hchain m (Nat.lt_of_succ_le hm)).2.2
      unfold bidPollingInterval at *
      omega
  cases n with
  | zero => exact Nat.zero_le _
  | succ m =>
    have h2 := (hchain m (Nat.lt_succ_self m)).1
    have h1 := hgrow m (Nat.le_succ m)
    unfold bidPollingInterval at *
    rw [Nat.le_div_iff_mul_le (by norm_num)]
    omega

/-- Witness for C5: a two-round chain under the default 120-second wait. -/
theorem C5_poll_loop_bounded_witness :
    30 ≤ 120 ∧ 120 ≤ 600 ∧
    (∀ k, k < 2 → pollStep (120 * 1000) ⟨3000 * k, k⟩ ⟨3000 * (k + 1), k + 1⟩) ∧
    2 ≤ (120 * 1000 + (bidPollingInterval - 1)) / bidPollingInterval :=
  ⟨by norm_num, by norm_num,
    by
      intro k hk
      exact ⟨by simp only [] ; omega, rfl, by simp only [bidPollingInterval]; omega⟩,
    C5_poll_loop_bounded 120 2 (fun k => ⟨3000 * k, k⟩) (by norm_num) (by norm_num)
      (by
        intro k hk
        exact ⟨by simp only []; omega, rfl, by simp only [bidPollingInterval]; omega⟩)⟩

/-- Claim C7: the unit/amount converters are pure.  Each converter,
re-expressed as a state-passing function over an arbitrary world `W`,
returns a result independent of the incoming world and leaves the world
unchanged. -/
theorem C7_converters_pure :
    ∀ (W : Type) (w w2 : W),
      (∀ x, (aktToUaktEff W w x).1 = (aktToUaktEff W w2 x).1 ∧
        (aktToUaktEff W w x).2 = w) ∧
      (∀ x, (uaktToAktEff W w x).1 = (uaktToAktEff W w2 x).1 ∧
        (uaktToAktEff W w x).2 = w) ∧
      (∀ s, (parseAmountStringEff W w s).1 = (parseAmountStringEff W w2 s).1 ∧
        (parseAmountStringEff W w s).2 = w) ∧
      (∀ s, (parseMemorySizeEff W w s).1 = (parseMemorySizeEff W w2 s).1 ∧
        (parseMemorySizeEff W w s).2 = w) ∧
      (∀ s, (parseCpuUnitsEff W w s).1 = (parseCpuUnitsEff W w2 s).1 ∧
        (parseCpuUnitsEff W w s).2 = w) ∧
      (∀ c, (formatCoinEff W w c).1 = (formatCoinEff W w2 c).1 ∧
        (formatCoinEff W w c).2 = w) ∧
      (∀ a b, (compareAmountsEff W w a b).1 = (compareAmountsEff W w2 a b).1 ∧
        (compareAmountsEff W w a b).2 = w) ∧
      (∀ a b, (addAmountsEff W w a b).1 = (addAmountsEff W w2 a b).1 ∧
        (addAmountsEff W w a b).2 = w) ∧
      (∀ a b, (subtractAmountsEff W w a b).1 = (subtractAmountsEff W w2 a b).1 ∧
        (subtractAmountsEff W w a b).2 = w) := by
  intro W w w2
  exact ⟨fun x => ⟨rfl, rfl⟩, fun x => ⟨rfl, rfl⟩, fun s => ⟨rfl, rfl⟩,
    fun s => ⟨rfl, rfl⟩, fun s => ⟨rfl, rfl⟩, fun c => ⟨rfl, rfl⟩,
    fun a b => ⟨rfl, rfl⟩, fun a b => ⟨rfl, rfl⟩, fun a b => ⟨rfl, rfl⟩⟩

/-- Counterexample to claim C4 as stated: a `getBids` error during polling
(a round with `bids = none`) does not fail the operation — it returns a
normal response; and a `sendManifest` error is caught and recorded on the
response instead of propagating. -/
theorem C4_counterexample :
    getBidsErrEnv.rounds = [{ bids := none, elapsedAfter := 3000 }] ∧
    (executeCreate defaultCreateOptions getBidsErrEnv).1 =
      .ok { success := true, dseq := "100", bidsReceived := some 0
          , lease := some none
          , message := some "No suitable bids received within the wait time"
          , manifestSent := none, manifestError := none } ∧
    manifestErrEnv.manifestResult = .error "manifest boom" ∧
    (executeCreate defaultCreateOptions manifestErrEnv).1 =
      .ok { success := true, dseq := "100", bidsReceived := some 1
          , lease := some (some { created := true, transactionHash := "LH"
                                , provider := "akash1prov"
                                , price := { denom := "uakt", amount := "50" }
                                , gseq := 1, oseq := 1 })
          , message := none, manifestSent := some false
          , manifestError := some "manifest boom" } :=
  ⟨rfl, by decide, rfl, by decide⟩

/-- Claim C4 amended: `createDeployment` and `createLease` errors propagate
to the caller; `getBids` errors during polling and `sendManifest` errors do
not fail the operation — whenever the deployment and lease transactions
succeed the operation returns a response, and a `sendManifest` error is
recorded as `manifestSent = false` with its message. -/
theorem C4_error_propagation (opts : CreateOptions) (env : CreateEnv) :
    (∀ e, env.createResult = .error e → (executeCreate opts env).1 = .error e) ∧
    (∀ e tx ds b, env.createResult = .ok (tx, ds) →
      opts.autoAcceptBid ≠ some false →
      (runRounds opts.maxPrice opts.preferredProvider env.rounds none []).1 = some b →
      env.leaseResult = .error e → (executeCreate opts env).1 = .error e) ∧
    (∀ tx ds lr, env.createResult = .ok (tx, ds) → env.leaseResult = .ok lr →
      ∃ resp, (executeCreate opts env).1 = .ok resp) ∧
    (∀ e tx ds lr b, env.createResult = .ok (tx, ds) → env.leaseResult = .ok lr →
      opts.autoAcceptBid ≠ some false → opts.sendManifest ≠ some false → lr.code = 0 →
      (runRounds opts.maxPrice opts.preferredProvider env.rounds none []).1 = some b →
      env.manifestResult = .error e →
      ∃ resp, (executeCreate opts env).1 = .ok resp ∧
        resp.manifestSent = some false ∧ resp.manifestError = some e) := by
  refine ⟨?_, ?_, ?_, ?_⟩
  · intro e h
    simp only [executeCreate, h]
  · intro e tx ds b hcr hauto hbest hlease
    simp only [executeCreate, hcr, if_pos hauto, hbest, hlease]
  · intro tx ds lr hcr hlease
    simp only [executeCreate, hcr, hlease]
    by_cases hauto : opts.autoAcceptBid ≠ some false
    · rw [if_pos hauto]
      cases hbest : (runRounds opts.maxPrice opts.preferredProvider env.rounds none []).1 with
      | none => exact ⟨_, rfl⟩
      | some b =>
        simp only
        by_cases hsm : opts.sendManifest ≠ some false ∧ lr.code = 0
        · rw [if_pos hsm]
          cases env.manifestResult with
          | ok u => exact ⟨_, rfl⟩
          | error e => exact ⟨_, rfl⟩
        · rw [if_neg hsm]
          exact ⟨_, rfl⟩
    · rw [if_neg hauto]
      exact ⟨_, rfl⟩
  · intro e tx ds lr b hcr hlease hauto hsm hcode hbest hman
    simp only [executeCreate, hcr, if_pos hauto, hbest, hlease, hman]
    rw [if_pos ⟨hsm, hcode⟩]
    exact ⟨_, rfl, rfl, rfl⟩

/-- Witness for the amended C4 at `leaseErrEnv`: the lease error `lease
boom` propagates. -/
theorem C4_error_propagation_witness :
    leaseErrEnv.createResult =
      .ok ({ code := 0, transactionHash := "AB", height := 10 }, "100") ∧
    defaultCreateOptions.autoAcceptBid ≠ some false ∧
    (runRounds defaultCreateOptions.maxPrice defaultCreateOptions.preferredProvider
      leaseErrEnv.rounds none []).1 = some sampleBid ∧
    leaseErrEnv.leaseResult = .error "lease boom" ∧
    (executeCreate defaultCreateOptions leaseErrEnv).1 = .error "lease boom" :=
  ⟨rfl, by decide, by decide, rfl,
    (C4_error_propagation defaultCreateOptions leaseErrEnv).2.1 "lease boom"
      { code := 0, transactionHash := "AB", height := 10 } "100" sampleBid rfl
      (by decide) (by decide) rfl⟩

/-- Claim C8: with auto-accept enabled, a selected best bid leads to
exactly one `createLease` call with that bid's dseq, gseq, oseq and
provider, reported in the response, with the manifest sent exactly when
`sendManifest` is not disabled and the lease transaction succeeded; with no
selected bid, no lease is created and the response carries `lease = null`
and the no-bids message.  Bids are assumed to carry the deployment's dseq,
which is what the `getBids(owner, dseq, 1, 1)` query returns. -/
theorem C8_auto_accept_lease (opts : CreateOptions) (env : CreateEnv)
    (tx : TxResult) (ds : String)
    (hauto : opts.autoAcceptBid ≠ some false)
    (hcr : env.createResult = .ok (tx, ds))
    (hdseq : ∀ r ∈ env.rounds, ∀ bids, r.bids = some bids → ∀ b ∈ bids,
      b.bidId.dseq = ds) :
    (∀ b, (runRounds opts.maxPrice opts.preferredProvider env.rounds none []).1 = some b →
      b.bidId.dseq = ds ∧
      (executeCreate opts env).2.1 =
        [{ dseq := ds, gseq := b.bidId.gseq, oseq := b.bidId.oseq
         , provider := b.bidId.provider }] ∧
      (∀ lr, env.leaseResult = .ok lr →
        ∃ resp, (executeCreate opts env).1 = .ok resp ∧
          resp.lease = some (some
            { created := decide (lr.code = 0), transactionHash := lr.transactionHash
            , provider := b.bidId.provider, price := b.price
            , gseq := b.bidId.gseq, oseq := b.bidId.oseq }) ∧
          resp.bidsReceived.isSome = true ∧
          ((executeCreate opts env).2.2 =
            if opts.sendManifest ≠ some false ∧ lr.code = 0 then
              [{ owner := env.owner, dseq := ds, provider := b.bidId.provider }]
            else []))) ∧
    ((runRounds opts.maxPrice opts.preferredProvider env.rounds none []).1 = none →
      (executeCreate opts env).2.1 = [] ∧ (executeCreate opts env).2.2 = [] ∧
      ∃ resp, (executeCreate opts env).1 = .ok resp ∧ resp.lease = some none ∧
        resp.message = some "No suitable bids received within the wait time") := by
  constructor
  · intro b hbest
    have hbd : b.bidId.dseq = ds := by
      rcases runRounds_best_cases hbest with h | ⟨r, hr, bids, hbids, hmem⟩
      · exact absurd h (by simp)
      · exact hdseq r hr bids hbids b (eligibleBids_subset hmem)
    refine ⟨hbd, ?_, ?_⟩
    · cases hl : env.leaseResult with
      | error e => simp [executeCreate, hcr, hauto, hbest, hl]
      | ok lr =>
        by_cases hsm : opts.sendManifest ≠ some false ∧ lr.code = 0
        · cases hm : env.manifestResult <;>
            simp [executeCreate, hcr, hauto, hbest, hl, hm, hsm]
        · simp [executeCreate, hcr, hauto, hbest, hl, hsm]
    · intro lr hl
      simp only [executeCreate, hcr, if_pos hauto, hbest, hl]
      by_cases hsm : opts.sendManifest ≠ some false ∧ lr.code = 0
      · rw [if_pos hsm, if_pos hsm]
        cases env.manifestResult with
        | ok u => exact ⟨_, rfl, rfl, rfl, rfl⟩
        | error e => exact ⟨_, rfl, rfl, rfl, rfl⟩
      · rw [if_neg hsm, if_neg hsm]
        exact ⟨_, rfl, rfl, rfl, rfl⟩
  · intro hbest
    refine ⟨?_, ?_, ?_⟩
    · simp [executeCreate, hcr, hauto, hbest]
    · simp [executeCreate, hcr, hauto, hbest]
    · simp only [executeCreate, hcr, if_pos hauto, hbest]
      exact ⟨_, rfl, rfl, rfl⟩

/-- Witness for C8 at `manifestErrEnv`: `sampleBid` is selected, one lease
call is made with its identifiers, and the failed manifest send is
reflected in the manifest-call list. -/
theorem C8_auto_accept_lease_witness :
    defaultCreateOptions.autoAcceptBid ≠ some false ∧
    manifestErrEnv.createResult =
      .ok ({ code := 0, transactionHash := "AB", height := 10 }, "100") ∧
    (∀ r ∈ manifestErrEnv.rounds, ∀ bids, r.bids = some bids → ∀ b ∈ bids,
      b.bidId.dseq = "100") ∧
    (runRounds defaultCreateOptions.maxPrice defaultCreateOptions.preferredProvider
      manifestErrEnv.rounds none []).1 = some sampleBid ∧
    sampleBid.bidId.dseq = "100" ∧
    (executeCreate defaultCreateOptions manifestErrEnv).2.1 =
      [{ dseq := "100", gseq := sampleBid.bidId.gseq, oseq := sampleBid.bidId.oseq
       , provider := sampleBid.bidId.provider }] := by
  refine ⟨by decide, rfl, by decide, by decide, rfl, ?_⟩
  exact (((C8_auto_accept_lease defaultCreateOptions manifestErrEnv
    { code := 0, transactionHash := "AB", height := 10 } "100"
    (by decide) rfl (by decide)).1 sampleBid (by decide)).2).1

lemma leB_zero_false_of_pos {d : JsNum} (h : (JsNum.ofInt 0).ltB d = true) :
    d.leB (JsNum.ofInt 0) = false := by
  rw [ltB_ofInt_zero_iff] at h
  simp [JsNum.leB, JsNum.ofInt]
  omega

lemma ltB_one_false_of_ge {d : JsNum} (h : (JsNum.ofInt 1).leB d = true) :
    d.ltB (JsNum.ofInt 1) = false := by
  simp [JsNum.leB, JsNum.ofInt] at h
  simp [JsNum.ltB, JsNum.ofInt]
  omega

lemma parseMemorySize_empty : parseMemorySize "" = .error "Invalid memory size format: " := by
  decide

/-- Counterexample to claim C10 as stated: an options record meeting every
constraint the claim lists (positive cpu, valid positive memory and storage
sizes, replicas and maxPrice omitted) whose generated SDL nevertheless
fails validation, because the claim does not require a non-empty image. -/
theorem C10_counterexample :
    (JsNum.ofInt 0).ltB sampleSimpleOptsNoImage.cpu = true ∧
    parseMemorySize sampleSimpleOptsNoImage.memory = .ok 536870912 ∧
    parseMemorySize sampleSimpleOptsNoImage.storage = .ok 1073741824 ∧
    sampleSimpleOptsNoImage.replicas = none ∧
    sampleSimpleOptsNoImage.maxPrice = none ∧
    (validateSDL (createSimpleSDL sampleSimpleOptsNoImage)).1 = false := by
  refine ⟨by decide, by decide, by decide, rfl, rfl, by decide⟩

/-- Claim C10 amended: the builder-parser-validator round trip passes for
every options record with a non-empty image, positive cpu, valid positive
memory and storage sizes, replicas at least 1 (or omitted) and a positive
maxPrice (or omitted).  `parseSDL ∘ yaml.dump` is the identity on the built
plain-data object, so the round trip reduces to validating the built
manifest. -/
theorem C10_roundtrip (o : SimpleSDLOpts)
    (himg : o.image ≠ "")
    (hcpu : (JsNum.ofInt 0).ltB o.cpu = true)
    (hmem : ∃ v, parseMemorySize o.memory = .ok v ∧ 0 < v)
    (hsto : ∃ v, parseMemorySize o.storage = .ok v ∧ 0 < v)
    (hrep : ∀ r, o.replicas = some r → (JsNum.ofInt 1).leB r = true)
    (hmax : ∀ mp, o.maxPrice = some mp → (JsNum.ofInt 0).ltB mp = true) :
    validateSDL (createSimpleSDL o) = (true, []) := by
  obtain ⟨mv, hmv, hmvpos⟩ := hmem
  have hmemne : o.memory ≠ "" := by
    intro h
    rw [h, parseMemorySize_empty] at hmv
    exact Except.noConfusion hmv
  have hcpuT : numTruthy o.cpu = true := numTruthy_of_pos hcpu
  have hcpule : o.cpu.leB (JsNum.ofInt 0) = false := leB_zero_false_of_pos hcpu
  have hcount : ((o.replicas.getD (JsNum.ofInt 1)).ltB (JsNum.ofInt 1)) = false := by
    cases hr : o.replicas with
    | none => decide
    | some r =>
      simp only [Option.getD_some]
      exact ltB_one_false_of_ge (hrep r hr)
  have hamt : ((o.maxPrice.getD (JsNum.ofInt 100)).leB (JsNum.ofInt 0)) = false := by
    cases hr : o.maxPrice with
    | none => decide
    | some mp =>
      simp only [Option.getD_some]
      exact leB_zero_false_of_pos (hmax mp hr)
  have hver : versionErrors (createSimpleSDL o) = [] := by
    simp [versionErrors, createSimpleSDL]
  have hsvc : servicesErrors (createSimpleSDL o) = [] := by
    simp only [servicesErrors, createSimpleSDL]
    cases hp : o.port with
    | none => simp [validateService, himg]
    | some p =>
      by_cases ht : numTruthy p = true
      · simp [validateService, himg, ht]
      · simp [validateService, himg, ht]
  have hprof : profilesErrors (createSimpleSDL o) = [] := by
    simp only [profilesErrors, createSimpleSDL]
    simp [validateComputeProfile, validatePlacementProfile, cpuUnitsTruthy,
      cpuUnitsParse, hcpuT, hcpule, hmemne, hmv, hamt, not_le]
    omega
  have hdep : deploymentErrors (createSimpleSDL o) = [] := by
    simp only [deploymentErrors, createSimpleSDL]
    simp [deployServiceErrors, serviceLookup, computeLookup, placementLookup,
      createSimpleSDL, List.lookup, hcount]
  simp [validateSDL, hver, hsvc, hprof, hdep]

lemma digitChar_isDigit {d : ℕ} (h : d < 10) : (digitChar d).isDigit = true := by
  interval_cases d <;> decide

lemma charDigit_digitChar {d : ℕ} (h : d < 10) : charDigit (digitChar d) = d := by
  interval_cases d <;> decide

lemma digitChar_not_ws {d : ℕ} (h : d < 10) : isWs (digitChar d) = false := by
  interval_cases d <;> decide

lemma digitChar_ne_dot {d : ℕ} (h : d < 10) : digitChar d ≠ '.' := by
  interval_cases d <;> decide

lemma digitChar_ne_dash {d : ℕ} (h : d < 10) : digitChar d ≠ '-' := by
  interval_cases d <;> decide

lemma digitChar_ne_plus {d : ℕ} (h : d < 10) : digitChar d ≠ '+' := by
  interval_cases d <;> decide

lemma toLower_digitChar {d : ℕ} (h : d < 10) : (digitChar d).toLower = digitChar d := by
  interval_cases d <;> decide

lemma takeWhile_append_of {p : Char → Bool} :
    ∀ {l1 l2 : List Char}, (∀ a ∈ l1, p a = true) →
      (∀ a, l2.head? = some a → p a = false) →
      (l1 ++ l2).takeWhile p = l1 ∧ (l1 ++ l2).dropWhile p = l2 := by
  intro l1
  induction l1 with
  | nil =>
    intro l2 _ h2
    cases l2 with
    | nil => simp
    | cons c cs =>
      have hc := h2 c rfl
      simp [List.takeWhile_cons, List.dropWhile_cons, hc]
  | cons a l1 ih =>
    intro l2 h1 h2
    have ha := h1 a (List.mem_cons_self _ _)
    have hrest := ih (fun x hx => h1 x (List.mem_cons_of_mem _ hx)) h2
    simp [List.takeWhile_cons, List.dropWhile_cons, ha, hrest.1, hrest.2]

lemma takeDigits_eq (l : List Char) :
    takeDigits l = (l.takeWhile Char.isDigit, l.dropWhile Char.isDigit) := by
  induction l with
  | nil => rfl
  | cons c cs ih =>
    by_cases h : c.isDigit = true
    · simp [takeDigits, h, ih, List.takeWhile_cons, List.dropWhile_cons]
    · simp [takeDigits, h, List.takeWhile_cons, List.dropWhile_cons]

lemma charsVal_map_digitChar {ds : List ℕ} (h : DigitList ds) :
    charsVal (ds.map digitChar) = digitsVal ds := by
  unfold charsVal
  rw [List.map_map]
  have heq : ∀ d ∈ ds, (charDigit ∘ digitChar) d = id d :=
    fun d hd => charDigit_digitChar (h d hd)
  rw [List.map_congr_left heq, List.map_id]

lemma all_digitChar_isDigit {ds : List ℕ} (h : DigitList ds) :
    ∀ c ∈ ds.map digitChar, c.isDigit = true := by
  intro c hc
  rcases List.mem_map.mp hc with ⟨d, hd, rfl⟩
  exact digitChar_isDigit (h d hd)

lemma dropWhile_eq_self_of_head {p : Char → Bool} {l : List Char}
    (h : ∀ c, l.head? = some c → p c = false) : l.dropWhile p = l := by
  cases l with
  | nil => rfl
  | cons c cs => simp [List.dropWhile_cons, h c rfl]

lemma head_all {p : Char → Bool} {l : List Char} (h : ∀ c ∈ l, p c = false) :
    ∀ c, l.head? = some c → p c = false := by
  intro c hc
  cases l with
  | nil => simp at hc
  | cons a cs =>
    simp at hc
    subst hc
    exact h _ (List.mem_cons_self _ _)

lemma trimChars_eq_of_noWs {l : List Char} (h : ∀ c ∈ l, isWs c = false) :
    trimChars l = l := by
  have h1 : l.dropWhile isWs = l := dropWhile_eq_self_of_head (head_all h)
  have h2 : l.reverse.dropWhile isWs = l.reverse :=
    dropWhile_eq_self_of_head (head_all (fun c hc => h c (List.mem_reverse.mp hc)))
  simp [trimChars, h1, h2]

lemma lowerChars_eq_of_fixed {l : List Char} (h : ∀ c ∈ l, c.toLower = c) :
    lowerChars l = l := by
  unfold lowerChars
  have heq : ∀ c ∈ l, Char.toLower c = id c := fun c hc => h c hc
  rw [List.map_congr_left heq, List.map_id]

lemma JsNum.round_eq (d : JsNum) : d.round = ⌊d.toRat + 1 / 2⌋ := by
  unfold JsNum.round JsNum.toRat
  have h10 : ((10 : ℚ) ^ d.exp) ≠ 0 := by positivity
  have hcast : (d.man : ℚ) / 10 ^ d.exp + 1 / 2 =
      ((2 * d.man + 10 ^ d.exp : ℤ) : ℚ) / ((2 * 10 ^ d.exp : ℕ) : ℚ) := by
    push_cast
    field_simp
    ring
  rw [hcast, Rat.floor_intCast_div_natCast]
  congr 1
  push_cast
  ring

lemma JsNum.scaleMul_toRat (c : ℤ) (d : JsNum) :
    (d.scaleMul c).toRat = (c : ℚ) * d.toRat := by
  unfold JsNum.scaleMul JsNum.toRat
  push_cast
  ring

lemma JsNum.scaleMul_round (c : ℤ) (d : JsNum) :
    (d.scaleMul c).round = ⌊(c : ℚ) * d.toRat + 1 / 2⌋ := by
  rw [JsNum.round_eq, JsNum.scaleMul_toRat]

lemma buildJsNum_toRat (ip fp : List Char) :
    (buildJsNum false ip fp 0).toRat =
      (charsVal ip : ℚ) + (charsVal fp : ℚ) / 10 ^ fp.length := by
  unfold buildJsNum JsNum.toRat
  simp only [Bool.false_eq_true, if_false, le_refl, if_pos, Int.toNat_zero, pow_zero,
    mul_one]
  have h10 : ((10 : ℚ) ^ fp.length) ≠ 0 := by positivity
  push_cast
  field_simp

/-- Soundness of `parseMemorySize` on the regex grammar: a digit literal,
optionally a fraction, optional whitespace and a unit of the table yields
`Math.round(value * multiplier)`. -/
lemma parseMemorySize_sound (ip fp : List ℕ) (tail : List Char) (mult : ℤ)
    (hip : DigitList ip) (hfp : DigitList fp) (hne : ip ≠ [])
    (htail : ∀ c, tail.head? = some c → c.isDigit = false)
    (htail2 : fp = [] → ∀ c, tail.head? = some c → c ≠ '.')
    (hmult : memUnitMult (lowerChars (tail.dropWhile isWs)) = some mult) :
    parseMemorySize (String.mk (decimalStrOf ip fp ++ tail)) =
      .ok ⌊decimalValOf ip fp * (mult : ℚ) + 1 / 2⌋ := by
  have hipne : ip.map digitChar ≠ [] := by
    intro h
    exact hne (List.map_eq_nil.mp h)
  unfold parseMemorySize
  have htl : (String.mk (decimalStrOf ip fp ++ tail)).toList = decimalStrOf ip fp ++ tail :=
    rfl
  rw [htl]
  by_cases hfpe : fp = []
  · subst hfpe
    have hlist : decimalStrOf ip [] ++ tail = ip.map digitChar ++ tail := by
      simp [decimalStrOf]
    rw [hlist]
    have hsp := takeWhile_append_of (all_digitChar_isDigit hip) htail
    have hval : memSizeMatch (ip.map digitChar ++ tail) =
        memUnitPart (ip.map digitChar) [] tail := by
      unfold memSizeMatch
      rw [hsp.1, hsp.2]
      rw [if_neg hipne]
      cases htc : tail with
      | nil => rfl
      | cons c cs =>
        have hdot : c ≠ '.' := htail2 rfl c (by rw [htc]; rfl)
        simp only [if_neg hdot]
    rw [hval]
    unfold memUnitPart
    rw [hmult]
    simp only [Except.ok.injEq]
    rw [JsNum.scaleMul_round, buildJsNum_toRat, charsVal_map_digitChar hip]
    unfold decimalValOf
    norm_num [mul_comm]
    simp [charsVal, digitsVal]
  · have hlist : decimalStrOf ip fp ++ tail =
        ip.map digitChar ++ ('.' :: (fp.map digitChar ++ tail)) := by
      simp [decimalStrOf, hfpe]
    rw [hlist]
    have hdothead : ∀ a, ('.' :: (fp.map digitChar ++ tail)).head? = some a →
        a.isDigit = false := by
      intro a ha
      simp at ha
      subst ha
      decide
    have hsp := takeWhile_append_of (all_digitChar_isDigit hip) hdothead
    have hsp2 := takeWhile_append_of (all_digitChar_isDigit hfp) htail
    have hfpne : fp.map digitChar ≠ [] := by
      intro h
      exact hfpe (List.map_eq_nil.mp h)
    have hval : memSizeMatch (ip.map digitChar ++ ('.' :: (fp.map digitChar ++ tail))) =
        memUnitPart (ip.map digitChar) (fp.map digitChar) tail := by
      unfold memSizeMatch
      rw [hsp.1, hsp.2]
      rw [if_neg hipne]
      simp only [if_pos rfl]
      rw [hsp2.1, hsp2.2]
      rw [if_neg hfpne]
      simp
    rw [hval]
    unfold memUnitPart
    rw [hmult]
    simp only [Except.ok.injEq]
    rw [JsNum.scaleMul_round, buildJsNum_toRat, charsVal_map_digitChar hip,
      charsVal_map_digitChar hfp]
    unfold decimalValOf
    rw [List.length_map]
    ring_nf

lemma memSizeMatch_nil (cs : List Char)
    (hip : cs.takeWhile Char.isDigit ≠ []) (hr : cs.dropWhile Char.isDigit = []) :
    memSizeMatch cs = memUnitPart (cs.takeWhile Char.isDigit) [] [] := by
  unfold memSizeMatch
  rw [if_neg hip, hr]

lemma memSizeMatch_cons (cs : List Char) (c : Char) (cs2 : List Char)
    (hip : cs.takeWhile Char.isDigit ≠ []) (hr : cs.dropWhile Char.isDigit = c :: cs2) :
    memSizeMatch cs =
      if c = '.' then
        if cs2.takeWhile Char.isDigit = [] then none
        else memUnitPart (cs.takeWhile Char.isDigit) (cs2.takeWhile Char.isDigit)
          (cs2.dropWhile Char.isDigit)
      else memUnitPart (cs.takeWhile Char.isDigit) [] (c :: cs2) := by
  unfold memSizeMatch
  rw [if_neg hip, hr]

/-- Completeness of `parseMemorySize`: any accepted input decomposes as
digits, an optional dot-fraction, whitespace and a unit of the table, and
the output is `Math.round(value * multiplier)`. -/
lemma parseMemorySize_complete (s : String) (v : ℤ)
    (h : parseMemorySize s = .ok v) :
    ∃ ipc fpc tail mult,
      s.toList = ipc ++ (if fpc = [] then [] else '.' :: fpc) ++ tail ∧
      (∀ c ∈ ipc, c.isDigit = true) ∧ (∀ c ∈ fpc, c.isDigit = true) ∧ ipc ≠ [] ∧
      memUnitMult (lowerChars (tail.dropWhile isWs)) = some mult ∧
      v = ⌊((charsVal ipc : ℚ) + (charsVal fpc : ℚ) / 10 ^ fpc.length) * (mult : ℚ)
            + 1 / 2⌋ := by
  unfold parseMemorySize at h
  cases hm : memSizeMatch s.toList with
  | none => rw [hm] at h; exact absurd h (by simp)
  | some p =>
    rw [hm] at h
    simp only [Except.ok.injEq] at h
    have hipd : ∀ c ∈ s.toList.takeWhile Char.isDigit, c.isDigit = true :=
      fun c hc => List.mem_takeWhile_imp hc
    have hsplit := List.takeWhile_append_dropWhile Char.isDigit s.toList
    by_cases hip : s.toList.takeWhile Char.isDigit = []
    · have heq : memSizeMatch s.toList = none := by
        unfold memSizeMatch
        rw [if_pos hip]
      rw [heq] at hm
      exact absurd hm (by simp)
    · cases hrest : s.toList.dropWhile Char.isDigit with
      | nil =>
        have heq : memSizeMatch s.toList =
            memUnitPart (s.toList.takeWhile Char.isDigit) [] [] :=
          memSizeMatch_nil s.toList hip hrest
        rw [heq] at hm
        unfold memUnitPart at hm
        cases hmm : memUnitMult (lowerChars (List.dropWhile isWs [])) with
        | none => rw [hmm] at hm; exact absurd hm (by simp)
        | some mult =>
          rw [hmm] at hm
          simp only [Option.some.injEq] at hm
          rw [hrest, List.append_nil] at hsplit
          refine ⟨s.toList.takeWhile Char.isDigit, [], [], mult, ?_, hipd, by simp,
            hip, hmm, ?_⟩
          · simpa using hsplit.symm
          · rw [← h, ← hm]
            simp only
            rw [JsNum.scaleMul_round, buildJsNum_toRat]
            congr 1
            ring
      | cons c cs2 =>
        by_cases hdot : c = '.'
        · subst hdot
          by_cases hfp : cs2.takeWhile Char.isDigit = []
          · have heq : memSizeMatch s.toList = none := by
              rw [memSizeMatch_cons s.toList _ _ hip hrest]
              simp [hfp]
            rw [heq] at hm
            exact absurd hm (by simp)
          · have heq : memSizeMatch s.toList =
                memUnitPart (s.toList.takeWhile Char.isDigit)
                  (cs2.takeWhile Char.isDigit) (cs2.dropWhile Char.isDigit) := by
              rw [memSizeMatch_cons s.toList _ _ hip hrest]
              simp [hfp]
            rw [heq] at hm
            unfold memUnitPart at hm
            cases hmm : memUnitMult
                (lowerChars ((cs2.dropWhile Char.isDigit).dropWhile isWs)) with
            | none => rw [hmm] at hm; exact absurd hm (by simp)
            | some mult =>
              rw [hmm] at hm
              simp only [Option.some.injEq] at hm
              refine ⟨s.toList.takeWhile Char.isDigit, cs2.takeWhile Char.isDigit,
                cs2.dropWhile Char.isDigit, mult, ?_, hipd,
                (fun c hc => List.mem_takeWhile_imp hc), hip, hmm, ?_⟩
              · rw [hrest] at hsplit
                rw [if_neg hfp]
                conv_lhs => rw [← hsplit]
                simp [List.takeWhile_append_dropWhile]
              · rw [← h, ← hm]
                simp only
                rw [JsNum.scaleMul_round, buildJsNum_toRat]
                congr 1
                ring
        · have heq : memSizeMatch s.toList =
              memUnitPart (s.toList.takeWhile Char.isDigit) [] (c :: cs2) := by
            rw [memSizeMatch_cons s.toList _ _ hip hrest]
            simp [hdot]
          rw [heq] at hm
          unfold memUnitPart at hm
          cases hmm : memUnitMult (lowerChars ((c :: cs2).dropWhile isWs)) with
          | none => rw [hmm] at hm; exact absurd hm (by simp)
          | some mult =>
            rw [hmm] at hm
            simp only [Option.some.injEq] at hm
            rw [hrest] at hsplit
            refine ⟨s.toList.takeWhile Char.isDigit, [], c :: cs2, mult, ?_, hipd,
              by simp, hip, hmm, ?_⟩
            · simpa using hsplit.symm
            · rw [← h, ← hm]
              simp only
              rw [JsNum.scaleMul_round, buildJsNum_toRat]
              congr 1
              ring

/-- Soundness of the milli branch of `parseCpuUnits`: a digit string with
an `m` suffix yields `N / 1000`. -/
lemma parseCpuUnits_milli (ds : List ℕ) (h : DigitList ds) (hne : ds ≠ []) :
    parseCpuUnits (String.mk (ds.map digitChar ++ ['m'])) =
      .ok ⟨(digitsVal ds : ℤ), 3⟩ ∧
    (⟨(digitsVal ds : ℤ), 3⟩ : JsNum).toRat = (digitsVal ds : ℚ) / 1000 := by
  constructor
  · unfold parseCpuUnits
    simp only []
    have htl : (String.mk (ds.map digitChar ++ ['m'])).toList = ds.map digitChar ++ ['m'] :=
      rfl
    rw [htl]
    have hnws : ∀ c ∈ ds.map digitChar ++ ['m'], isWs c = false := by
      intro c hc
      rcases List.mem_append.mp hc with hc | hc
      · rcases List.mem_map.mp hc with ⟨d, hd, rfl⟩
        exact digitChar_not_ws (h d hd)
      · simp at hc
        subst hc
        decide
    have hfix : ∀ c ∈ ds.map digitChar ++ ['m'], c.toLower = c := by
      intro c hc
      rcases List.mem_append.mp hc with hc | hc
      · rcases List.mem_map.mp hc with ⟨d, hd, rfl⟩
        exact toLower_digitChar (h d hd)
      · simp at hc
        subst hc
        decide
    rw [trimChars_eq_of_noWs hnws, lowerChars_eq_of_fixed hfix]
    have hsp := takeWhile_append_of (all_digitChar_isDigit h)
      (fun a (ha : (['m'] : List Char).head? = some a) => by
        simp at ha
        subst ha
        decide)
    have hmm : milliMatch (ds.map digitChar ++ ['m']) = some (ds.map digitChar) := by
      unfold milliMatch
      rw [hsp.1, hsp.2]
      rw [if_neg (fun hh => hne (List.map_eq_nil.mp hh))]
      simp
    rw [hmm]
    simp only [Except.ok.injEq]
    rw [charsVal_map_digitChar h]
  · unfold JsNum.toRat
    norm_num

/-- Soundness of the `parseFloat` branch of `parseCpuUnits` on plain
decimal literals. -/
lemma parseCpuUnits_decimal (ip fp : List ℕ)
    (hip : DigitList ip) (hfp : DigitList fp) (hne : ip ≠ []) :
    ∃ d, parseCpuUnits (String.mk (decimalStrOf ip fp)) = .ok d ∧
      d.toRat = decimalValOf ip fp := by
  have hnws : ∀ c ∈ decimalStrOf ip fp, isWs c = false := by
    intro c hc
    unfold decimalStrOf at hc
    rcases List.mem_append.mp hc with hc | hc
    · rcases List.mem_map.mp hc with ⟨d, hd, rfl⟩
      exact digitChar_not_ws (hip d hd)
    · by_cases hfpe : fp = []
      · rw [if_pos hfpe] at hc
        simp at hc
      · rw [if_neg hfpe] at hc
        rcases List.mem_cons.mp hc with hc | hc
        · subst hc
          decide
        · rcases List.mem_map.mp hc with ⟨d, hd, rfl⟩
          exact digitChar_not_ws (hfp d hd)
  have hfix : ∀ c ∈ decimalStrOf ip fp, c.toLower = c := by
    intro c hc
    unfold decimalStrOf at hc
    rcases List.mem_append.mp hc with hc | hc
    · rcases List.mem_map.mp hc with ⟨d, hd, rfl⟩
      exact toLower_digitChar (hip d hd)
    · by_cases hfpe : fp = []
      · rw [if_pos hfpe] at hc
        simp at hc
      · rw [if_neg hfpe] at hc
        rcases List.mem_cons.mp hc with hc | hc
        · subst hc
          decide
        · rcases List.mem_map.mp hc with ⟨d, hd, rfl⟩
          exact toLower_digitChar (hfp d hd)
  rcases List.exists_cons_of_ne_nil hne with ⟨i0, ip2, rfl⟩
  have hi0 : i0 < 10 := hip i0 (List.mem_cons_self _ _)
  by_cases hfpe : fp = []
  · subst hfpe
    have hlist : decimalStrOf (i0 :: ip2) [] = (i0 :: ip2).map digitChar := by
      simp [decimalStrOf]
    have hsp0 : ((i0 :: ip2).map digitChar ++ ([] : List Char)) =
        (i0 :: ip2).map digitChar := by simp
    have hsp := takeWhile_append_of (all_digitChar_isDigit hip)
      (fun a (ha : ([] : List Char).head? = some a) => by simp at ha)
    rw [hsp0] at hsp
    have hmm : milliMatch ((i0 :: ip2).map digitChar) = none := by
      unfold milliMatch
      rw [hsp.2]
      simp
    have hflt : jsParseFloatChars ((i0 :: ip2).map digitChar) =
        some (buildJsNum false ((i0 :: ip2).map digitChar) [] 0) := by
      unfold jsParseFloatChars
      simp only []
      have hdw : ((i0 :: ip2).map digitChar).dropWhile isWs =
          (i0 :: ip2).map digitChar := by
        apply dropWhile_eq_self_of_head
        intro c hc
        simp at hc
        subst hc
        exact digitChar_not_ws hi0
      rw [hdw]
      have hsign : takeSign ((i0 :: ip2).map digitChar) =
          (false, (i0 :: ip2).map digitChar) := by
        simp only [List.map_cons, takeSign]
        rw [if_neg (digitChar_ne_dash hi0), if_neg (digitChar_ne_plus hi0)]
      rw [hsign]
      simp only
      rw [takeDigits_eq, hsp.1, hsp.2]
      simp
      rfl
    have hrun : parseCpuUnits (String.mk (decimalStrOf (i0 :: ip2) [])) =
        .ok (buildJsNum false ((i0 :: ip2).map digitChar) [] 0) := by
      unfold parseCpuUnits
      simp only []
      have htl2 : (String.mk (decimalStrOf (i0 :: ip2) [])).toList =
          decimalStrOf (i0 :: ip2) [] := rfl
      rw [htl2, trimChars_eq_of_noWs hnws, lowerChars_eq_of_fixed hfix, hlist, hmm, hflt]
    refine ⟨_, hrun, ?_⟩
    rw [buildJsNum_toRat, charsVal_map_digitChar hip]
    unfold decimalValOf
    simp [charsVal, digitsVal]
  · have hlist : decimalStrOf (i0 :: ip2) fp =
        (i0 :: ip2).map digitChar ++ ('.' :: fp.map digitChar) := by
      simp [decimalStrOf, hfpe]
    have hsp := takeWhile_append_of (all_digitChar_isDigit hip)
      (fun a (ha : ('.' :: fp.map digitChar).head? = some a) => by
        simp at ha
        subst ha
        decide)
    have hsp2 : (fp.map digitChar).takeWhile Char.isDigit = fp.map digitChar ∧
        (fp.map digitChar).dropWhile Char.isDigit = [] := by
      have := takeWhile_append_of (all_digitChar_isDigit hfp)
        (fun a (ha : ([] : List Char).head? = some a) => by simp at ha)
      simpa using this
    have hmm : milliMatch ((i0 :: ip2).map digitChar ++ ('.' :: fp.map digitChar)) =
        none := by
      unfold milliMatch
      rw [hsp.2]
      simp
    have hflt : jsParseFloatChars ((i0 :: ip2).map digitChar ++ ('.' :: fp.map digitChar)) =
        some (buildJsNum false ((i0 :: ip2).map digitChar) (fp.map digitChar) 0) := by
      unfold jsParseFloatChars
      simp only []
      have hdw : ((i0 :: ip2).map digitChar ++ ('.' :: fp.map digitChar)).dropWhile isWs =
          (i0 :: ip2).map digitChar ++ ('.' :: fp.map digitChar) := by
        apply dropWhile_eq_self_of_head
        intro c hc
        simp at hc
        subst hc
        exact digitChar_not_ws hi0
      rw [hdw]
      have hsign : takeSign ((i0 :: ip2).map digitChar ++ ('.' :: fp.map digitChar)) =
          (false, (i0 :: ip2).map digitChar ++ ('.' :: fp.map digitChar)) := by
        simp only [List.map_cons, List.cons_append, takeSign]
        rw [if_neg (digitChar_ne_dash hi0), if_neg (digitChar_ne_plus hi0)]
      rw [hsign]
      simp only
      rw [takeDigits_eq, hsp.1, hsp.2]
      simp only [if_pos rfl]
      rw [takeDigits_eq, hsp2.1, hsp2.2]
      simp
      rfl
    have hrun : parseCpuUnits (String.mk (decimalStrOf (i0 :: ip2) fp)) =
        .ok (buildJsNum false ((i0 :: ip2).map digitChar) (fp.map digitChar) 0) := by
      unfold parseCpuUnits
      simp only []
      have htl2 : (String.mk (decimalStrOf (i0 :: ip2) fp)).toList =
          decimalStrOf (i0 :: ip2) fp := rfl
      rw [htl2, trimChars_eq_of_noWs hnws, lowerChars_eq_of_fixed hfix, hlist, hmm, hflt]
    refine ⟨_, hrun, ?_⟩
    rw [buildJsNum_toRat, charsVal_map_digitChar hip, charsVal_map_digitChar hfp]
    unfold decimalValOf
    rw [List.length_map]

/-- `parseCpuUnits` throws exactly when neither the milli pattern matches
nor `parseFloat` finds a numeric prefix in the trimmed lowercased input. -/
lemma parseCpuUnits_error_iff (s : String) :
    (∃ e, parseCpuUnits s = .error e) ↔
      (milliMatch (lowerChars (trimChars s.toList)) = none ∧
       jsParseFloatChars (lowerChars (trimChars s.toList)) = none) := by
  have hsd : s.toList = s.data := rfl
  rw [hsd]
  unfold parseCpuUnits
  simp only []
  cases hm : milliMatch (lowerChars (trimChars s.data)) with
  | some ds => simp [hm]
  | none =>
    cases hf : jsParseFloatChars (lowerChars (trimChars s.data)) with
    | some d => simp [hm, hf]
    | none => simp [hm, hf]

/-- `aktToUakt` on a non-negative number is the decimal string of
`Math.round(x * 1_000_000)`. -/
lemma aktToUakt_num (d : JsNum) (h : d.ltB (JsNum.ofInt 0) = false) :
    aktToUakt (.num d) = .ok (intDecString ⌊(1000000 : ℚ) * d.toRat + 1 / 2⌋) := by
  unfold aktToUakt
  simp only [h, Bool.false_eq_true, if_false]
  rw [show UAKT_PER_AKT = (1000000 : ℤ) from rfl, JsNum.scaleMul_round]
  norm_num

/-- C6 counterexample: `parseCpuUnits` does not throw on `2x`, which is
neither an `Nm` string nor a plain numeric string (JS `parseFloat` accepts
any numeric prefix); and `parseMemorySize` does not throw on `2 Ki`, which
has whitespace between the number and the unit. -/
theorem C6_counterexample :
    parseCpuUnits "2x" = .ok ⟨2, 0⟩ ∧ parseMemorySize "2 Ki" = .ok 2048 := by
  constructor <;> decide

/-- C6 (amended): the unit converters implement the stated conversions,
with two relaxations of the accepted formats.  `parseMemorySize` maps a
decimal numeral, optional whitespace, and an optional case-insensitive unit
`K/M/G/T/P` or `Ki/Mi/Gi/Ti/Pi` to `Math.round(value * multiplier)` bytes
(soundness and completeness of the regex match); `parseCpuUnits` maps `Nm`
to `N / 1000` and any trimmed lowercased input with a `parseFloat` numeric
prefix — not only plain numeric strings — to that prefix value, throwing
exactly when neither pattern applies; `aktToUakt` maps a non-negative
number `x` to the decimal string of `Math.round(x * 1000000)`. -/
theorem C6_converters :
    (∀ ip fp tail mult, DigitList ip → DigitList fp → ip ≠ [] →
      (∀ c, tail.head? = some c → c.isDigit = false) →
      (fp = [] → ∀ c, tail.head? = some c → c ≠ '.') →
      memUnitMult (lowerChars (tail.dropWhile isWs)) = some mult →
      parseMemorySize (String.mk (decimalStrOf ip fp ++ tail)) =
        .ok ⌊decimalValOf ip fp * (mult : ℚ) + 1 / 2⌋) ∧
    (∀ s v, parseMemorySize s = .ok v →
      ∃ ipc fpc tail mult,
        s.toList = ipc ++ (if fpc = [] then [] else '.' :: fpc) ++ tail ∧
        (∀ c ∈ ipc, c.isDigit = true) ∧ (∀ c ∈ fpc, c.isDigit = true) ∧ ipc ≠ [] ∧
        memUnitMult (lowerChars (tail.dropWhile isWs)) = some mult ∧
        v = ⌊((charsVal ipc : ℚ) + (charsVal fpc : ℚ) / 10 ^ fpc.length) * (mult : ℚ)
              + 1 / 2⌋) ∧
    (∀ ds, DigitList ds → ds ≠ [] →
      parseCpuUnits (String.mk (ds.map digitChar ++ ['m'])) =
        .ok ⟨(digitsVal ds : ℤ), 3⟩ ∧
      (⟨(digitsVal ds : ℤ), 3⟩ : JsNum).toRat = (digitsVal ds : ℚ) / 1000) ∧
    (∀ ip fp, DigitList ip → DigitList fp → ip ≠ [] →
      ∃ d, parseCpuUnits (String.mk (decimalStrOf ip fp)) = .ok d ∧
        d.toRat = decimalValOf ip fp) ∧
    (∀ s, (∃ e, parseCpuUnits s = .error e) ↔
      (milliMatch (lowerChars (trimChars s.toList)) = none ∧
       jsParseFloatChars (lowerChars (trimChars s.toList)) = none)) ∧
    (∀ d : JsNum, d.ltB (JsNum.ofInt 0) = false →
      aktToUakt (.num d) = .ok (intDecString ⌊(1000000 : ℚ) * d.toRat + 1 / 2⌋)) :=
  ⟨fun ip fp tail mult hip hfp hne ht ht2 hm =>
      parseMemorySize_sound ip fp tail mult hip hfp hne ht ht2 hm,
    fun s v h => parseMemorySize_complete s v h,
    fun ds h hne => parseCpuUnits_milli ds h hne,
    fun ip fp hip hfp hne => parseCpuUnits_decimal ip fp hip hfp hne,
    fun s => parseCpuUnits_error_iff s,
    fun d h => aktToUakt_num d h⟩

/-- Witness for the amended C6 at `512Mi`, `100m`, `0.5` and `0.5` AKT. -/
theorem C6_converters_witness :
    parseMemorySize (String.mk (decimalStrOf [5, 1, 2] [] ++ ['M', 'i'])) =
      .ok ⌊decimalValOf [5, 1, 2] [] * ((1024 * 1024 : ℤ) : ℚ) + 1 / 2⌋ ∧
    parseCpuUnits (String.mk (List.map digitChar [1, 0, 0] ++ ['m'])) =
      .ok ⟨(digitsVal [1, 0, 0] : ℤ), 3⟩ ∧
    (∃ d, parseCpuUnits (String.mk (decimalStrOf [0] [5])) = .ok d ∧
      d.toRat = decimalValOf [0] [5]) ∧
    aktToUakt (.num ⟨5, 1⟩) =
      .ok (intDecString ⌊(1000000 : ℚ) * (⟨5, 1⟩ : JsNum).toRat + 1 / 2⌋) := by
  refine ⟨?_, ?_, ?_, ?_⟩
  · exact C6_converters.1 [5, 1, 2] [] ['M', 'i'] (1024 * 1024)
      (by show ∀ d ∈ ([5, 1, 2] : List ℕ), d < 10; decide)
      (by show ∀ d ∈ ([] : List ℕ), d < 10; decide)
      (by decide)
      (fun c hc => by simp at hc; subst hc; decide)
      (fun _ c hc => by simp at hc; subst hc; decide)
      (by decide)
  · exact (C6_converters.2.2.1 [1, 0, 0]
      (by show ∀ d ∈ ([1, 0, 0] : List ℕ), d < 10; decide) (by decide)).1
  · exact C6_converters.2.2.2.1 [0] [5]
      (by show ∀ d ∈ ([0] : List ℕ), d < 10; decide)
      (by show ∀ d ∈ ([5] : List ℕ), d < 10; decide)
      (by decide)
  · exact C6_converters.2.2.2.2.2 ⟨5, 1⟩ (by decide)

/-- Witness for the amended C10 at `sampleSimpleOpts`. -/
theorem C10_roundtrip_witness :
    sampleSimpleOpts.image ≠ "" ∧
    (JsNum.ofInt 0).ltB sampleSimpleOpts.cpu = true ∧
    (∃ v, parseMemorySize sampleSimpleOpts.memory = .ok v ∧ 0 < v) ∧
    (∃ v, parseMemorySize sampleSimpleOpts.storage = .ok v ∧ 0 < v) ∧
    (∀ r, sampleSimpleOpts.replicas = some r → (JsNum.ofInt 1).leB r = true) ∧
    (∀ mp, sampleSimpleOpts.maxPrice = some mp → (JsNum.ofInt 0).ltB mp = true) ∧
    validateSDL (createSimpleSDL sampleSimpleOpts) = (true, []) :=
  ⟨by decide, by decide, ⟨536870912, by decide, by decide⟩,
    ⟨1073741824, by decide, by decide⟩, by simp [sampleSimpleOpts], by simp [sampleSimpleOpts],
    C10_roundtrip sampleSimpleOpts (by decide) (by decide)
      ⟨536870912, by decide, by decide⟩ ⟨1073741824, by decide, by decide⟩
      (by simp [sampleSimpleOpts]) (by simp [sampleSimpleOpts])⟩

lemma versionErrors_nil (sdl : SDLManifest) :
    versionErrors sdl = [] ↔ ∃ v, sdl.version = some v ∧ (v = "2.0" ∨ v = "2.1") := by
  unfold versionErrors
  cases hv : sdl.version with
  | none => simp
  | some v =>
    simp only []
    by_cases h0 : v = ""
    · subst h0
      simp
    · rw [if_neg h0]
      by_cases h1 : v ≠ "2.0" ∧ v ≠ "2.1"
      · rw [if_pos h1]
        simp [h1.1, h1.2]
      · rw [if_neg h1]
        rw [not_and_or, not_not, not_not] at h1
        simp [h1]

lemma forall_enum_iff {α : Type} (l : List α) (C : α → Prop) :
    (∀ p ∈ l.enum, C p.2) ↔ ∀ a ∈ l, C a := by
  constructor
  · intro h a ha
    rw [← List.enum_map_snd l] at ha
    rcases List.mem_map.mp ha with ⟨p, hp, rfl⟩
    exact h p hp
  · intro h p hp
    refine h p.2 ?_
    rw [← List.enum_map_snd l]
    exact List.mem_map_of_mem _ hp

lemma validateService_nil (name : String) (s : SDLService) :
    validateService name s = [] ↔ serviceClaimOK s := by
  unfold validateService serviceClaimOK
  rw [List.append_eq_nil]
  apply and_congr
  · by_cases h : s.image = "" <;> simp [h]
  · cases hexp : s.expose with
    | none => simp
    | some exps =>
      rw [List.flatMap_eq_nil_iff]
      simp only [Option.some.injEq]
      constructor
      · intro h exps2 heq e he
        cases heq
        rw [← List.enum_map_snd exps] at he
        rcases List.mem_map.mp he with ⟨p, hp, rfl⟩
        have h2 := h p hp
        rw [List.append_eq_nil] at h2
        constructor
        · cases hport : p.2.port with
          | none =>
            rw [hport] at h2
            exact absurd h2.1 (by simp)
          | some d =>
            rw [hport] at h2
            by_cases hnt : numTruthy d = true
            · exact ⟨d, rfl, hnt⟩
            · rw [Bool.not_eq_true] at hnt
              have h3 := h2.1
              simp [hnt] at h3
        · intro pr hpr hne
          have h3 := h2.2
          rw [hpr] at h3
          by_cases hc : pr ≠ "" ∧ pr ≠ "tcp" ∧ pr ≠ "udp"
          · rw [show (match some pr with
                | none => ([] : List String)
                | some q =>
                  if q ≠ "" ∧ q ≠ "tcp" ∧ q ≠ "udp" then
                    ["Service " ++ name ++ ": expose[" ++ natDecString p.1 ++
                     "] invalid proto " ++ q ++ " (must be tcp or udp)"]
                  else []) =
                if pr ≠ "" ∧ pr ≠ "tcp" ∧ pr ≠ "udp" then
                  ["Service " ++ name ++ ": expose[" ++ natDecString p.1 ++
                   "] invalid proto " ++ pr ++ " (must be tcp or udp)"]
                else [] from rfl, if_pos hc] at h3
            exact absurd h3 (by simp)
          · rw [not_and_or, not_and_or, not_not, not_not, not_not] at hc
            rcases hc with hc | hc | hc
            · exact absurd hc hne
            · exact Or.inl hc
            · exact Or.inr hc
      · intro h p hp
        have hmem : p.2 ∈ exps := by
          rw [← List.enum_map_snd exps]
          exact List.mem_map_of_mem _ hp
        have h2 := h exps rfl p.2 hmem
        rw [List.append_eq_nil]
        constructor
        · rcases h2.1 with ⟨d, hd, hnt⟩
          rw [hd]
          simp [hnt]
        · cases hpr : p.2.proto with
          | none => simp
          | some pr =>
            by_cases hemp : pr = ""
            · subst hemp
              simp
            · rcases h2.2 pr hpr hemp with rfl | rfl <;> simp

lemma validateComputeProfile_nil (name : String) (c : SDLComputeProfile) :
    validateComputeProfile name c = [] ↔ computeClaimOK c := by
  unfold validateComputeProfile computeClaimOK
  cases hr : c.resources with
  | none => simp
  | some r =>
    simp only [Option.some.injEq, exists_eq_left', List.append_eq_nil]
    rw [and_assoc, and_assoc]
    apply and_congr
    · cases hcpu : r.cpu with
      | none => simp
      | some cu =>
        simp only [Option.some.injEq, exists_eq_left']
        cases hu : cu.units with
        | none => simp
        | some u =>
          simp only [Option.some.injEq, exists_eq_left']
          by_cases ht : cpuUnitsTruthy u = true
          · simp only [ht, if_true, true_and]
            cases hp : cpuUnitsParse u with
            | error e => simp
            | ok v =>
              simp only [Except.ok.injEq, exists_eq_left']
              by_cases hle : v.leB (JsNum.ofInt 0) = true <;> simp [hle]
          · rw [Bool.not_eq_true] at ht
            simp [ht]
    apply and_congr
    · cases hm : r.memory with
      | none => simp
      | some m =>
        simp only [Option.some.injEq, exists_eq_left']
        by_cases hsz : m.size = ""
        · simp [hsz]
        · rw [if_neg hsz]
          simp only [ne_eq, hsz, not_false_eq_true, true_and]
          cases hp : parseMemorySize m.size with
          | error e => simp
          | ok v =>
            simp only [Except.ok.injEq, exists_eq_left']
            by_cases hv : v ≤ 0
            · rw [if_pos hv]
              simp
              omega
            · rw [if_neg hv]
              simp
              omega
    apply and_congr
    · cases hs : r.storage with
      | none => simp
      | some sf => simp
    · cases hg : r.gpu with
      | none => simp
      | some g =>
        simp only [Option.some.injEq, forall_eq']
        cases hu : g.units with
        | none => simp
        | some u =>
          simp only [Option.some.injEq, exists_eq_left']
          by_cases hlt : u.ltB (JsNum.ofInt 0) = true <;> simp [hlt]

lemma pricingEntry_nil (name : String) (q : String × SDLPricing) :
    ((if q.2.denom = "" then
        ["Placement profile " ++ name ++ ": pricing for " ++ q.1 ++ " missing denom"]
      else []) ++
     (match q.2.amount with
      | some a =>
        if a.leB (JsNum.ofInt 0) then
          ["Placement profile " ++ name ++ ": pricing for " ++ q.1 ++
           " must have positive amount"]
        else []
      | none =>
        ["Placement profile " ++ name ++ ": pricing for " ++ q.1 ++
         " must have positive amount"])) = [] ↔
    (q.2.denom ≠ "" ∧ ∃ a, q.2.amount = some a ∧ a.leB (JsNum.ofInt 0) = false) := by
  rw [List.append_eq_nil]
  apply and_congr
  · by_cases h : q.2.denom = "" <;> simp [h]
  · cases ha : q.2.amount with
    | none => simp
    | some a =>
      simp only [Option.some.injEq, exists_eq_left']
      by_cases h : a.leB (JsNum.ofInt 0) = true <;> simp [h]

lemma validatePlacementProfile_nil (name : String) (p : SDLPlacementProfile) :
    validatePlacementProfile name p = [] ↔ placementClaimOK p := by
  unfold validatePlacementProfile placementClaimOK
  cases hpr : p.pricing with
  | none => simp
  | some l =>
    cases l with
    | nil => simp
    | cons a as =>
      simp only [Option.some.injEq, exists_eq_left', ne_eq, List.cons_ne_nil,
        not_false_eq_true, true_and]
      rw [List.flatMap_eq_nil_iff]
      constructor
      · intro h q hq
        exact (pricingEntry_nil name q).mp (h q hq)
      · intro h q hq
        exact (pricingEntry_nil name q).mpr (h q hq)

lemma servicesErrors_nil (sdl : SDLManifest) :
    servicesErrors sdl = [] ↔
      ∃ svcs, sdl.services = some svcs ∧ svcs ≠ [] ∧ ∀ p ∈ svcs, serviceClaimOK p.2 := by
  unfold servicesErrors
  cases hs : sdl.services with
  | none => simp
  | some l =>
    cases l with
    | nil => simp
    | cons a as =>
      simp only [Option.some.injEq, exists_eq_left', ne_eq, List.cons_ne_nil,
        not_false_eq_true, true_and]
      rw [List.flatMap_eq_nil_iff]
      constructor
      · intro h p hp
        exact (validateService_nil p.1 p.2).mp (h p hp)
      · intro h p hp
        exact (validateService_nil p.1 p.2).mpr (h p hp)

lemma profilesErrors_nil (sdl : SDLManifest) :
    profilesErrors sdl = [] ↔
      ∃ pr, sdl.profiles = some pr ∧
        (∃ cl, pr.compute = some cl ∧ cl ≠ [] ∧ ∀ p ∈ cl, computeClaimOK p.2) ∧
        (∃ pl, pr.placement = some pl ∧ pl ≠ [] ∧ ∀ p ∈ pl, placementClaimOK p.2) := by
  unfold profilesErrors
  cases hp : sdl.profiles with
  | none => simp
  | some pr =>
    simp only [Option.some.injEq, exists_eq_left', List.append_eq_nil]
    apply and_congr
    · cases hc : pr.compute with
      | none => simp
      | some l =>
        cases l with
        | nil => simp
        | cons a as =>
          simp only [Option.some.injEq, exists_eq_left', ne_eq, List.cons_ne_nil,
            not_false_eq_true, true_and]
          rw [List.flatMap_eq_nil_iff]
          constructor
          · intro h p hp2
            exact (validateComputeProfile_nil p.1 p.2).mp (h p hp2)
          · intro h p hp2
            exact (validateComputeProfile_nil p.1 p.2).mpr (h p hp2)
    · cases hc : pr.placement with
      | none => simp
      | some l =>
        cases l with
        | nil => simp
        | cons a as =>
          simp only [Option.some.injEq, exists_eq_left', ne_eq, List.cons_ne_nil,
            not_false_eq_true, true_and]
          rw [List.flatMap_eq_nil_iff]
          constructor
          · intro h p hp2
            exact (validatePlacementProfile_nil p.1 p.2).mp (h p hp2)
          · intro h p hp2
            exact (validatePlacementProfile_nil p.1 p.2).mpr (h p hp2)

lemma deployServiceErrors_nil (sdl : SDLManifest) (sc : String × SDLDeployConfig) :
    deployServiceErrors sdl sc = [] ↔
      (serviceLookup sdl sc.1).isSome = true ∧
      (computeLookup sdl sc.2.profile).isSome = true ∧
      ∃ c, sc.2.count = some c ∧ c.ltB (JsNum.ofInt 1) = false := by
  unfold deployServiceErrors
  rw [List.append_eq_nil, List.append_eq_nil, and_assoc]
  apply and_congr
  · cases hsl : serviceLookup sdl sc.1 with
    | none => simp
    | some v => simp
  apply and_congr
  · cases hcl : computeLookup sdl sc.2.profile with
    | none => simp
    | some v => simp
  · cases hc : sc.2.count with
    | none => simp
    | some c0 =>
      simp only [Option.some.injEq, exists_eq_left']
      by_cases h : c0.ltB (JsNum.ofInt 1) = true <;> simp [h]

lemma deploymentErrors_nil (sdl : SDLManifest) :
    deploymentErrors sdl = [] ↔
      ∃ dl, sdl.deployment = some dl ∧ dl ≠ [] ∧ ∀ pl ∈ dl,
        (placementLookup sdl pl.1).isSome = true ∧ ∀ sc ∈ pl.2,
          (serviceLookup sdl sc.1).isSome = true ∧
          (computeLookup sdl sc.2.profile).isSome = true ∧
          ∃ c, sc.2.count = some c ∧ c.ltB (JsNum.ofInt 1) = false := by
  unfold deploymentErrors
  cases hd : sdl.deployment with
  | none => simp
  | some l =>
    cases l with
    | nil => simp
    | cons a as =>
      simp only [Option.some.injEq, exists_eq_left', ne_eq, List.cons_ne_nil,
        not_false_eq_true, true_and]
      rw [List.flatMap_eq_nil_iff]
      constructor
      · intro h pl hpl
        have h2 := h pl hpl
        rw [List.append_eq_nil, List.flatMap_eq_nil_iff] at h2
        refine ⟨?_, fun sc hsc => (deployServiceErrors_nil sdl sc).mp (h2.2 sc hsc)⟩
        cases hlk : placementLookup sdl pl.1 with
        | none =>
          rw [hlk] at h2
          exact absurd h2.1 (by simp)
        | some v => simp
      · intro hall pl hpl
        rw [List.append_eq_nil, List.flatMap_eq_nil_iff]
        refine ⟨?_, fun sc hsc =>
          (deployServiceErrors_nil sdl sc).mpr ((hall pl hpl).2 sc hsc)⟩
        have h1 := (hall pl hpl).1
        cases hlk : placementLookup sdl pl.1 with
        | none =>
          rw [hlk] at h1
          simp at h1
        | some v => simp [hlk]

lemma validateSDL_snd_nil (sdl : SDLManifest) :
    (validateSDL sdl).2 = [] ↔ claimValidSDL sdl := by
  unfold validateSDL claimValidSDL
  simp only [List.append_eq_nil]
  rw [and_assoc, and_assoc]
  exact and_congr (versionErrors_nil sdl) (and_congr (servicesErrors_nil sdl)
    (and_congr (profilesErrors_nil sdl) (deploymentErrors_nil sdl)))

/-- C3 (amended): `validateSDL` reports valid exactly when its error list is
empty, and the error list is empty exactly when the manifest satisfies the
conditions the claim lists, AMENDED with the two checks the claim omits:
each expose entry of a service must have a nonzero numeric port and a proto
(when present and non-empty) of `tcp` or `udp`, and a gpu block (when
present) must have a non-negative numeric units field. -/
theorem C3_validateSDL (sdl : SDLManifest) :
    ((validateSDL sdl).1 = true ↔ (validateSDL sdl).2 = []) ∧
    ((validateSDL sdl).2 = [] ↔ claimValidSDL sdl) := by
  constructor
  · show (validateSDL sdl).1 = true ↔ (validateSDL sdl).2 = []
    unfold validateSDL
    simp only []
    exact List.isEmpty_iff
  · exact validateSDL_snd_nil sdl

/-- Witness for C3 at the repository test fixture `VALID_SDL`. -/
theorem C3_validateSDL_witness :
    ((validateSDL sampleManifest).1 = true ↔ (validateSDL sampleManifest).2 = []) ∧
    ((validateSDL sampleManifest).2 = [] ↔ claimValidSDL sampleManifest) :=
  C3_validateSDL sampleManifest

/-- C3 counterexample: `badProtoManifest` satisfies every condition the
claim lists (version, non-empty images, per-profile checks, deployment
references and counts), yet `validateSDL` reports it invalid, because the
validator also rejects invalid expose protos. -/
theorem C3_counterexample :
    claimValidSDLOrig badProtoManifest ∧ (validateSDL badProtoManifest).1 = false := by
  refine ⟨⟨⟨"2.0", rfl, Or.inl rfl⟩, ?_, ?_, ?_⟩, by decide⟩
  · refine ⟨_, rfl, by simp, ?_⟩
    intro p hp
    rcases List.mem_singleton.mp hp with rfl
    decide
  · refine ⟨_, rfl, ⟨_, rfl, by simp, ?_⟩, ⟨_, rfl, by simp, ?_⟩⟩
    · intro p hp
      rcases List.mem_singleton.mp hp with rfl
      exact ⟨_, rfl, ⟨_, rfl, _, rfl, by decide, _, rfl, by decide⟩,
        ⟨_, rfl, by decide, 536870912, by decide, by decide⟩, by decide⟩
    · intro p hp
      rcases List.mem_singleton.mp hp with rfl
      exact ⟨_, rfl, by simp, fun q hq => by
        rcases List.mem_singleton.mp hq with rfl
        exact ⟨by decide, _, rfl, by decide⟩⟩
  · refine ⟨_, rfl, by simp, ?_⟩
    intro pl hpl
    rcases List.mem_singleton.mp hpl with rfl
    refine ⟨by decide, ?_⟩
    intro sc hsc
    rcases List.mem_singleton.mp hsc with rfl
    exact ⟨by decide, by decide, _, rfl, by decide⟩

lemma jsGet_some {α : Type} (a : α) : jsGet (some a) = .ok a := rfl

lemma ok_bind {α β : Type} (a : α) (f : α → Except String β) :
    (Except.ok a >>= f : Except String β) = f a := rfl

lemma pure_ok {α : Type} (a : α) : (pure a : Except String α) = .ok a := rfl

lemma some_bind {α β : Type} (a : α) (f : α → Option β) :
    (some a >>= f : Option β) = f a := rfl

lemma bind_eq_ok {α β : Type} {x : Except String α} {f : α → Except String β} {b : β} :
    (x >>= f) = .ok b ↔ ∃ a, x = .ok a ∧ f a = .ok b := by
  cases x with
  | error e =>
    constructor
    · intro h
      exact Except.noConfusion (show Except.error e = Except.ok b from h)
    · rintro ⟨a, ha, _⟩
      exact Except.noConfusion ha
  | ok a =>
    constructor
    · intro h
      exact ⟨a, rfl, h⟩
    · rintro ⟨a2, ha, hf⟩
      cases Except.ok.inj ha
      exact hf

lemma jsGet_eq_ok {α : Type} {o : Option α} {a : α} : jsGet o = .ok a ↔ o = some a := by
  cases o with
  | none =>
    constructor
    · intro h
      exact Except.noConfusion (show (Except.error "TypeError: undefined" :
        Except String α) = Except.ok a from h)
    · intro h
      exact Option.noConfusion h
  | some b =>
    constructor
    · intro h
      cases Except.ok.inj h
      rfl
    · intro h
      cases Option.some.inj h
      rfl

lemma pure_eq_ok {α : Type} {a b : α} : (pure a : Except String α) = .ok b ↔ a = b := by
  rw [pure_ok]
  constructor
  · intro h
    exact Except.ok.inj h
  · intro h
    rw [h]

lemma mapM_ok_of_forall {α β : Type} (f : α → Except String β) (R : α → β → Prop) :
    ∀ l : List α, (∀ a ∈ l, ∃ b, f a = .ok b ∧ R a b) →
      ∃ l2, l.mapM f = .ok l2 ∧ List.Forall₂ R l l2 := by
  intro l
  induction l with
  | nil =>
    intro _
    exact ⟨[], by rw [List.mapM_nil]; rfl, List.Forall₂.nil⟩
  | cons a as ih =>
    intro h
    rcases h a (List.mem_cons_self a as) with ⟨b, hb, hR⟩
    rcases ih (fun x hx => h x (List.mem_cons_of_mem a hx)) with ⟨bs, hbs, hF⟩
    refine ⟨b :: bs, ?_, List.Forall₂.cons hR hF⟩
    rw [List.mapM_cons, hb, ok_bind, hbs, ok_bind, pure_ok]

lemma lookup_mem {α β : Type} [BEq α] :
    ∀ (l : List (α × β)) (a : α) (b : β), l.lookup a = some b → ∃ k, (k, b) ∈ l := by
  intro l
  induction l with
  | nil =>
    intro a b h
    exact Option.noConfusion h
  | cons p ps ih =>
    intro a b h
    rcases p with ⟨k, v⟩
    by_cases hk : (a == k) = true
    · have h2 : some v = some b := by
        rw [← h]
        simp [List.lookup, hk]
      cases Option.some.inj h2
      exact ⟨k, List.mem_cons_self _ _⟩
    · have h2 : ps.lookup a = some b := by
        rw [← h]
        simp [List.lookup, Bool.eq_false_iff.mpr hk]
      rcases ih a b h2 with ⟨k2, hk2⟩
      exact ⟨k2, List.mem_cons_of_mem _ hk2⟩

lemma ltB_false_of_leB_false {a b : JsNum} (h : a.leB b = false) : a.ltB b = false := by
  simp only [JsNum.leB, decide_eq_false_iff_not, not_le] at h
  simp only [JsNum.ltB, decide_eq_false_iff_not, not_lt]
  exact le_of_lt h

/-- C2 counterexample: `badStorageManifest` is accepted by `validateSDL`
(which only checks that storage is present), yet `sdlToGroups` throws on
its unparsable storage size, so the conversion does not return the claimed
groups for every accepted manifest. -/
theorem C2_counterexample :
    (validateSDL badStorageManifest).1 = true ∧
    sdlToGroups badStorageManifest = .error "Invalid memory size format: huge" := by
  constructor <;> decide

/-- C2 (amended): for every manifest accepted by `validateSDL` whose
reachable storage sizes all parse and whose placement pricing covers every
referenced compute profile, `sdlToGroups` succeeds with one group per
deployment placement, named after it, holding one resource entry per
service with the claimed cpu/memory/storage/count/price fields. -/
theorem C2_sdlToGroups (sdl : SDLManifest)
    (hval : (validateSDL sdl).2 = [])
    (hstor : storageSizesParse sdl)
    (hcov : pricingCovers sdl) :
    ∃ dl gs, sdl.deployment = some dl ∧ sdlToGroups sdl = .ok gs ∧
      List.Forall₂ (groupClaimSpec sdl) dl gs := by
  rcases (validateSDL_snd_nil sdl).mp hval with ⟨-, ⟨svcs, hsvc, -, -⟩,
    ⟨pr, hprof, ⟨cl, hcl, -, hclall⟩, ⟨pll, hplc, -, hpllall⟩⟩, ⟨dl, hdl, -, hdlall⟩⟩
  have hpleq : ∀ s, placementLookup sdl s = pll.lookup s := by
    intro s
    simp [placementLookup, hprof, hplc]
  have hcleq : ∀ s, computeLookup sdl s = cl.lookup s := by
    intro s
    simp [computeLookup, hprof, hcl]
  have hsleq : ∀ s, serviceLookup sdl s = svcs.lookup s := by
    intro s
    simp [serviceLookup, hsvc]
  have hper : ∀ pl ∈ dl, ∃ g, groupOfPlacement sdl pl = .ok g ∧ groupClaimSpec sdl pl g := by
    intro pl hpl
    rcases Option.isSome_iff_exists.mp (hdlall pl hpl).1 with ⟨pp, hppE⟩
    have hplk : pll.lookup pl.1 = some pp := by
      rw [← hpleq pl.1]
      exact hppE
    rcases lookup_mem pll pl.1 pp hplk with ⟨k0, hppmem⟩
    have hppOK : placementClaimOK pp := hpllall (k0, pp) hppmem
    rcases hppOK with ⟨prl, hppr, -, hprall⟩
    have hscall : ∀ sc ∈ pl.2, ∃ e, resourceOfService sdl pr (some pp) sc = .ok e ∧
        entryClaimSpec sdl pl.1 sc e := by
      intro sc hsc2
      rcases (hdlall pl hpl).2 sc hsc2 with ⟨hsvcS, hcpS, -⟩
      rcases Option.isSome_iff_exists.mp hsvcS with ⟨svc, hsvcE⟩
      have hsvclk : svcs.lookup sc.1 = some svc := by
        rw [← hsleq sc.1]
        exact hsvcE
      rcases Option.isSome_iff_exists.mp hcpS with ⟨cp, hcpE⟩
      have hclk : cl.lookup sc.2.profile = some cp := by
        rw [← hcleq sc.2.profile]
        exact hcpE
      rcases lookup_mem cl sc.2.profile cp hclk with ⟨k1, hcpmem⟩
      have hcpOK : computeClaimOK cp := hclall (k1, cp) hcpmem
      rcases hcpOK with ⟨r, hres, ⟨cu, hcu, u, hu, -, v, hparse, -⟩,
        ⟨m, hmsize, -, mb, hmemp, -⟩, hsfS, -⟩
      rcases Option.isSome_iff_exists.mp hsfS with ⟨sf, hsf⟩
      have hstore : ∀ p ∈ (storageListOf sf).enum, ∃ sr,
          convertStorageEntry p.1 p.2 = .ok sr ∧
          (∃ w, parseMemorySize p.2.size = .ok w ∧ sr.quantity.val = intDecString w) := by
        intro p hp2
        have hmem2 : p.2 ∈ storageListOf sf := by
          rw [← List.enum_map_snd (storageListOf sf)]
          exact List.mem_map_of_mem _ hp2
        rcases hstor dl hdl pl hpl sc hsc2 cp r sf hcpE hres hsf p.2 hmem2 with ⟨w, hw⟩
        refine ⟨{ name := storageEntryName p.2 p.1
                , quantity := ⟨intDecString w⟩
                , attributes :=
                    match p.2.sclass with
                    | some c => if c ≠ "" then some [⟨"class", c⟩] else none
                    | none => none }, ?_, w, hw, rfl⟩
        simp only [convertStorageEntry, hw, ok_bind, pure_ok]
      rcases mapM_ok_of_forall _ _ ((storageListOf sf).enum) hstore with ⟨srs, hsrs, hsrsF⟩
      have hsrsF2 : List.Forall₂ (fun (s : SDLStorage) (sr : StorageResource) =>
          ∃ w, parseMemorySize s.size = .ok w ∧ sr.quantity.val = intDecString w)
          (storageListOf sf) srs := by
        rw [← List.enum_map_snd (storageListOf sf), List.forall₂_map_left_iff]
        exact hsrsF
      rcases hcov dl hdl pl hpl sc hsc2 pp hppE with ⟨prl2, hppr2, hprcS⟩
      have hprleq : prl2 = prl := by
        rw [hppr] at hppr2
        exact (Option.some.inj hppr2).symm
      subst hprleq
      rcases Option.isSome_iff_exists.mp hprcS with ⟨pc, hprc⟩
      rcases lookup_mem prl2 sc.2.profile pc hprc with ⟨k2, hpcmem⟩
      have hpcOK : pc.denom ≠ "" ∧ ∃ a, pc.amount = some a ∧
          a.leB (JsNum.ofInt 0) = false := hprall (k2, pc) hpcmem
      rcases hpcOK with ⟨-, am, ham, hamle⟩
      have hamlt : am.ltB (JsNum.ofInt 0) = false := ltB_false_of_leB_false hamle
      have hamt : aktToUaktOptNum pc.amount =
          .ok (intDecString ((am.scaleMul UAKT_PER_AKT).round)) := by
        rw [ham]
        simp [aktToUaktOptNum, aktToUakt, hamlt]
      have hcvr : ∃ ru, convertResources cp.resources (svcs.lookup sc.1) = .ok ru ∧
          ru.cpu.units.val = intDecString ((v.scaleMul 1000).round) ∧
          ru.memory.quantity.val = intDecString mb ∧ ru.storage = srs := by
        simp only [convertResources, hres, hcu, hu, hparse, hmsize, hmemp, hsf, hsvclk,
          hsrs, jsGet_some, ok_bind, pure_ok]
        exact ⟨_, rfl, rfl, rfl, rfl⟩
      rcases hcvr with ⟨ru, hru, hruc, hrum, hrus⟩
      refine ⟨{ resources := ru, count := sc.2.count
              , price := { denom := pc.denom
                         , amount := intDecString ((am.scaleMul UAKT_PER_AKT).round) } },
        ?_, ?_⟩
      · simp only [resourceOfService, hcl, hppr, hclk, hsvc, hru, hprc, hamt,
          jsGet_some, ok_bind, pure_ok]
      · refine ⟨cp, r, hcpE, hres, ⟨cu, u, v, hcu, hu, hparse, hruc⟩,
          ⟨m, mb, hmsize, hmemp, hrum⟩, ⟨sf, hsf, ?_⟩, rfl,
          ⟨pp, prl2, pc, _, hppE, hppr, hprc, hamt, rfl⟩⟩
        change List.Forall₂ _ (storageListOf sf) ru.storage
        rw [hrus]
        exact hsrsF2
    rcases mapM_ok_of_forall (fun sc => resourceOfService sdl pr (some pp) sc)
      (entryClaimSpec sdl pl.1) pl.2 hscall with ⟨es, hes, hesF⟩
    refine ⟨{ name := pl.1
            , requirements :=
                { attributes := pp.attributes.map (fun l => l.map (fun kv => ⟨kv.1, kv.2⟩))
                , signedBy := pp.signedBy }
            , resources := es }, ?_, rfl, hesF⟩
    simp only [groupOfPlacement, hprof, hplc, hplk, hes, jsGet_some, ok_bind, pure_ok]
  rcases mapM_ok_of_forall (fun pl => groupOfPlacement sdl pl) (groupClaimSpec sdl) dl hper
    with ⟨gs, hgs, hgsF⟩
  refine ⟨dl, gs, hdl, ?_, hgsF⟩
  simp only [sdlToGroups, hdl, jsGet_some, ok_bind]
  exact hgs

/-- Witness for the amended C2 at the repository test fixture `VALID_SDL`. -/
theorem C2_sdlToGroups_witness :
    ∃ dl gs, sampleManifest.deployment = some dl ∧ sdlToGroups sampleManifest = .ok gs ∧
      List.Forall₂ (groupClaimSpec sampleManifest) dl gs := by
  refine C2_sdlToGroups sampleManifest (by decide) ?_ ?_
  · intro dl hdl pl hpl sc hsc cp r sf hcp hr hsf s hs2
    cases Option.some.inj hdl
    rcases List.mem_singleton.mp hpl with rfl
    rcases List.mem_singleton.mp hsc with rfl
    cases Option.some.inj hcp
    cases Option.some.inj hr
    cases Option.some.inj hsf
    rcases List.mem_singleton.mp hs2 with rfl
    exact ⟨1073741824, by decide⟩
  · intro dl hdl pl hpl sc hsc pp hpp
    cases Option.some.inj hdl
    rcases List.mem_singleton.mp hpl with rfl
    rcases List.mem_singleton.mp hsc with rfl
    cases Option.some.inj hpp
    exact ⟨_, rfl, by decide⟩

lemma bigIntE_eq_ok {s : String} {z : ℤ} : bigIntE s = .ok z ↔ jsBigIntOfString s = some z := by
  unfold bigIntE
  cases h : jsBigIntOfString s with
  | none => simp
  | some t => simp

lemma bigIntOfCount_eq_ok {c : Option JsNum} {z : ℤ} :
    bigIntOfCount c = .ok z ↔ ∃ d, c = some d ∧ d.isInt = true ∧ z = d.toInt := by
  unfold bigIntOfCount
  cases c with
  | none => simp
  | some d =>
    simp only [Option.some.injEq, exists_eq_left']
    by_cases h : d.isInt = true
    · rw [if_pos h]
      simp only [h, true_and, Except.ok.injEq]
      exact eq_comm
    · rw [if_neg h]
      simp [h]

/-- One deployment service entry: the claimed price summand of the
converted resource entry equals what `calculateSDLPrice` adds for it. -/
lemma entryPrice_correspond {sdl : SDLManifest} {pr : SDLProfiles}
    {pprof : Option SDLPlacementProfile} {sc : String × SDLDeployConfig}
    {e : ResourceGroup} {z : ℤ}
    (h1 : resourceOfService sdl pr pprof sc = .ok e)
    (h2 : priceOfService pprof sc = .ok z) :
    entryPriceTimesCount e = some z := by
  simp only [resourceOfService, bind_eq_ok, jsGet_eq_ok, pure_eq_ok] at h1
  simp only [priceOfService, bind_eq_ok, jsGet_eq_ok, pure_eq_ok] at h2
  rcases h1 with ⟨computes, hcomp, pp2, hppf, pm, hpm, cp, hcp, svcs2, hsvc2, ru, hru,
    p, hp, amt, hamt, he⟩
  rcases h2 with ⟨pp3, hppf2, pm2, hpm2, p2, hp2, pu, hpu, a2, ha2, c2, hc2, hz⟩
  rw [hppf] at hppf2
  cases Option.some.inj hppf2
  rw [hpm] at hpm2
  cases Option.some.inj hpm2
  rw [hp] at hp2
  cases Option.some.inj hp2
  rw [hamt] at hpu
  cases Except.ok.inj hpu
  rw [bigIntE_eq_ok] at ha2
  rw [bigIntOfCount_eq_ok] at hc2
  rcases hc2 with ⟨d, hd, hdint, hc2z⟩
  subst he
  subst hz
  subst hc2z
  unfold entryPriceTimesCount
  rw [show ({ resources := ru, count := sc.2.count
            , price := { denom := p.denom, amount := amt } } : ResourceGroup).price.amount
      = amt from rfl]
  rw [ha2, some_bind]
  rw [show ({ resources := ru, count := sc.2.count
            , price := { denom := p.denom, amount := amt } } : ResourceGroup).count
      = sc.2.count from rfl]
  rw [hd]
  simp only [hdint, if_true, some_bind]
  rfl

/-- The inner service fold of `calculateSDLPrice` accumulates exactly the
claimed per-entry summands of the converted entries. -/
lemma priceFold_correspond (pprof : Option SDLPlacementProfile)
    (sdl : SDLManifest) (pr : SDLProfiles) :
    ∀ (scs : List (String × SDLDeployConfig)) (es : List ResourceGroup) (acc acc2 : ℤ),
      scs.mapM (fun sc => resourceOfService sdl pr pprof sc) = .ok es →
      scs.foldlM (fun (a : ℤ) sc => priceOfService pprof sc >>= fun v => pure (a + v)) acc
        = .ok acc2 →
      ∃ vs, es.mapM entryPriceTimesCount = some vs ∧ acc2 = acc + vs.sum := by
  intro scs
  induction scs with
  | nil =>
    intro es acc acc2 hm hf
    rw [List.mapM_nil, pure_eq_ok] at hm
    rw [List.foldlM_nil, pure_eq_ok] at hf
    subst hm
    subst hf
    exact ⟨[], by rw [List.mapM_nil]; rfl, by simp⟩
  | cons sc scs ih =>
    intro es acc acc2 hm hf
    rw [List.mapM_cons, bind_eq_ok] at hm
    rcases hm with ⟨e, he, hm2⟩
    rw [bind_eq_ok] at hm2
    rcases hm2 with ⟨es2, hes2, hpes⟩
    rw [pure_eq_ok] at hpes
    subst hpes
    rw [List.foldlM_cons, bind_eq_ok] at hf
    rcases hf with ⟨a1, hstep, hrest⟩
    rw [bind_eq_ok] at hstep
    rcases hstep with ⟨z, hz, hpz⟩
    rw [pure_eq_ok] at hpz
    subst hpz
    have hez := entryPrice_correspond he hz
    rcases ih es2 (acc + z) acc2 hes2 hrest with ⟨vs, hvs, hsum⟩
    refine ⟨z :: vs, ?_, ?_⟩
    · rw [List.mapM_cons, hez, some_bind, hvs, some_bind]
      rfl
    · rw [hsum, List.sum_cons]
      ring

/-- The outer placement fold of `calculateSDLPrice` accumulates exactly the
claimed summands over all converted groups. -/
lemma calcFold_correspond (sdl : SDLManifest) :
    ∀ (dl : List (String × List (String × SDLDeployConfig))) (gs : List GroupSpec)
      (acc acc2 : ℤ),
      dl.mapM (fun pl => groupOfPlacement sdl pl) = .ok gs →
      dl.foldlM (placementPriceFold sdl) acc = .ok acc2 →
      ∃ vs, (gs.flatMap (fun g => g.resources)).mapM entryPriceTimesCount = some vs ∧
        acc2 = acc + vs.sum := by
  intro dl
  induction dl with
  | nil =>
    intro gs acc acc2 hm hf
    rw [List.mapM_nil, pure_eq_ok] at hm
    rw [List.foldlM_nil, pure_eq_ok] at hf
    subst hm
    subst hf
    refine ⟨[], ?_, by simp⟩
    rw [List.flatMap_nil, List.mapM_nil]
    rfl
  | cons pl dls ih =>
    intro gs acc acc2 hm hf
    rw [List.mapM_cons, bind_eq_ok] at hm
    rcases hm with ⟨g, hg, hm2⟩
    rw [bind_eq_ok] at hm2
    rcases hm2 with ⟨gs2, hgs2, hpg⟩
    rw [pure_eq_ok] at hpg
    subst hpg
    rw [List.foldlM_cons, bind_eq_ok] at hf
    rcases hf with ⟨acc1, hstep, hrest⟩
    simp only [groupOfPlacement, placementPriceFold, bind_eq_ok, jsGet_eq_ok,
      pure_eq_ok] at hg hstep
    rcases hg with ⟨pr, hpr, pll, hpll, es, hes, pp2, hpp2, hge⟩
    rcases hstep with ⟨pr2, hpr2, pll2, hpll2, hifold⟩
    rw [hpr] at hpr2
    cases Option.some.inj hpr2
    rw [hpll] at hpll2
    cases Option.some.inj hpll2
    have hgres : g.resources = es := by
      rw [← hge]
    rcases priceFold_correspond (pll.lookup pl.1) sdl pr pl.2 es acc acc1 hes hifold
      with ⟨vs1, hvs1, hsum1⟩
    rcases ih gs2 acc1 acc2 hgs2 hrest with ⟨vs2, hvs2, hsum2⟩
    refine ⟨vs1 ++ vs2, ?_, ?_⟩
    · rw [List.flatMap_cons, hgres, List.mapM_append, hvs1, some_bind, hvs2, some_bind]
      rfl
    · rw [List.sum_append, hsum2, hsum1]
      ring

/-- C9: `calculateSDLPrice` returns denom `uakt` and, whenever `sdlToGroups`
also succeeds, an amount equal to the sum over all converted groups and
resource entries of the entry price amount times its count, in exact
integer arithmetic. -/
theorem C9_price (sdl : SDLManifest) (gs : List GroupSpec) (c : Coin)
    (hg : sdlToGroups sdl = .ok gs) (hp : calculateSDLPrice sdl = .ok c) :
    c.denom = "uakt" ∧ ∃ S, groupsPriceSum gs = some S ∧ c.amount = intDecString S := by
  simp only [sdlToGroups, bind_eq_ok, jsGet_eq_ok] at hg
  rcases hg with ⟨dl, hdl, hmap⟩
  simp only [calculateSDLPrice, bind_eq_ok, jsGet_eq_ok, pure_eq_ok] at hp
  rcases hp with ⟨dl2, hdl2, total, hfold, hc⟩
  rw [hdl] at hdl2
  cases Option.some.inj hdl2
  rcases calcFold_correspond sdl dl gs 0 total hmap hfold with ⟨vs, hvs, hsum⟩
  subst hc
  refine ⟨rfl, vs.sum, ?_, ?_⟩
  · unfold groupsPriceSum
    rw [hvs, some_bind]
    rfl
  · show intDecString total = intDecString vs.sum
    rw [hsum, zero_add]

/-- Witness for C9 at the repository test fixture `VALID_SDL`. -/
theorem C9_price_witness :
    (⟨"uakt", "1000000000"⟩ : Coin).denom = "uakt" ∧
    ∃ S, groupsPriceSum sampleGroups = some S ∧
      (⟨"uakt", "1000000000"⟩ : Coin).amount = intDecString S :=
  C9_price sampleManifest sampleGroups ⟨"uakt", "1000000000"⟩ (by decide) (by decide)

end Akash
